import Mathlib

/-!
Verification of the metrics registry, Prometheus export, metrics middleware
and payload-truncation logic of the `fastapi_bootstrap` library.

Python floats are modelled as `ℚ`, Python ints as `ℤ`, Python dicts as
insertion-ordered association lists (or total functions for `defaultdict`).
-/

namespace FastapiBootstrap

/-- A histogram, embedding the `Histogram` dataclass of `metrics.py`.
`counts` models the `defaultdict(int)` field `_counts`. -/
structure Histogram where
  buckets : List ℚ
  counts : ℚ → ℕ
  sum : ℚ
  count : ℕ

/-- The default bucket boundaries `(0.005, 0.01, 0.025, 0.05, 0.1, 0.25,
0.5, 1.0, 2.5, 5.0, 10.0)`. -/
def defaultBuckets : List ℚ :=
  [5/1000, 1/100, 25/1000, 5/100, 1/10, 25/100, 5/10, 1, 25/10, 5, 10]

/-- A fresh `Histogram()` with the default buckets. -/
def Histogram.init : Histogram :=
  { buckets := defaultBuckets, counts := fun _ => 0, sum := 0, count := 0 }

/-- Embeds `Histogram.observe`: adds to `_sum`, bumps `_count`, and for every bucket
boundary with `value <= bucket` increments that bucket's tally. -/
def Histogram.observe (h : Histogram) (value : ℚ) : Histogram :=
  { h with
    sum := h.sum + value
    count := h.count + 1
    counts := h.buckets.foldl
      (fun cs bucket =>
        if value ≤ bucket then Function.update cs bucket (cs bucket + 1) else cs)
      h.counts }

/-- Embeds `Histogram.get_bucket_counts`: iterates the sorted boundaries, keeping a
running total of the per-bucket tallies, and returns the insertion-ordered
dict as an association list. -/
def Histogram.get_bucket_counts (h : Histogram) : List (ℚ × ℕ) :=
  (List.foldl
    (fun (acc : List (ℚ × ℕ) × ℕ) bucket =>
      let total := acc.2 + h.counts bucket
      (acc.1 ++ [(bucket, total)], total))
    ([], 0)
    (h.buckets.insertionSort (· ≤ ·))).1

/-- A counter, embedding the `Counter` dataclass (Python int value). -/
structure Counter where
  value : ℤ

/-- Embeds `Counter.inc(value=1)`. -/
def Counter.inc (c : Counter) (value : ℤ := 1) : Counter :=
  ⟨c.value + value⟩

/-- A gauge, embedding the `Gauge` dataclass (Python float value). -/
structure Gauge where
  value : ℚ

/-- Embeds `Gauge.set(value)`. -/
def Gauge.set (_ : Gauge) (value : ℚ) : Gauge := ⟨value⟩

/-- Embeds `Gauge.inc(value=1.0)`. -/
def Gauge.inc (g : Gauge) (value : ℚ := 1) : Gauge := ⟨g.value + value⟩

/-- Embeds `Gauge.dec(value=1.0)`. -/
def Gauge.dec (g : Gauge) (value : ℚ := 1) : Gauge := ⟨g.value - value⟩

/-- Observe a whole list of values in order. -/
def Histogram.observeAll (h : Histogram) (vs : List ℚ) : Histogram :=
  vs.foldl Histogram.observe h

/-- First-match association-list lookup, the model of Python dict lookup
(`key in d` / `d[key]`); dict keys are unique so first match is the match. -/
def findVal {κ V : Type} [DecidableEq κ] (k : κ) : List (κ × V) → Option V
  | [] => none
  | (k', v) :: rest => if k = k' then some v else findVal k rest

/-- Python dict assignment `d[k] = v`: replace in place, else append. -/
def setVal {κ V : Type} [DecidableEq κ] (k : κ) (v : V) : List (κ × V) → List (κ × V)
  | [] => [(k, v)]
  | (k', v') :: rest => if k = k' then (k, v) :: rest else (k', v') :: setVal k v rest

/-- The `MetricsRegistry` state: insertion-ordered label-keyed maps of
primitives, plus the app-info dict. -/
structure MetricsRegistry where
  app_name : String
  request_count : List ((String × String × ℤ) × Counter)
  request_latency : List ((String × String) × Histogram)
  request_in_progress : List ((String × String) × Gauge)
  error_count : List ((String × String × String) × Counter)
  app_info : List (String × String)

/-- Embeds `MetricsRegistry(app_name)`: all maps start empty. -/
def MetricsRegistry.init (app_name : String) : MetricsRegistry :=
  ⟨app_name, [], [], [], [], []⟩

/-- Embeds `MetricsRegistry.set_app_info(version, python_version)`. -/
def MetricsRegistry.set_app_info (r : MetricsRegistry) (version python_version : String) :
    MetricsRegistry :=
  { r with app_info := [("version", version), ("python_version", python_version)] }

/-- Embeds `MetricsRegistry.get_request_count`: get-or-create the counter keyed by
`(method, path, status)`, returning it together with the updated registry. -/
def MetricsRegistry.get_request_count (r : MetricsRegistry) (method path : String)
    (status : ℤ) : Counter × MetricsRegistry :=
  let key := (method, path, status)
  match findVal key r.request_count with
  | some c => (c, r)
  | none => (⟨0⟩, { r with request_count := r.request_count ++ [(key, ⟨0⟩)] })

/-- Embeds `MetricsRegistry.get_request_latency`: get-or-create the histogram keyed
by `(method, path)`. -/
def MetricsRegistry.get_request_latency (r : MetricsRegistry) (method path : String) :
    Histogram × MetricsRegistry :=
  let key := (method, path)
  match findVal key r.request_latency with
  | some h => (h, r)
  | none =>
    (Histogram.init, { r with request_latency := r.request_latency ++ [(key, Histogram.init)] })

/-- Embeds `MetricsRegistry.get_requests_in_progress`: get-or-create the gauge keyed
by `(method, path)`. -/
def MetricsRegistry.get_requests_in_progress (r : MetricsRegistry) (method path : String) :
    Gauge × MetricsRegistry :=
  let key := (method, path)
  match findVal key r.request_in_progress with
  | some g => (g, r)
  | none => (⟨0⟩, { r with request_in_progress := r.request_in_progress ++ [(key, ⟨0⟩)] })

/-- Embeds `MetricsRegistry.get_error_count`: get-or-create the counter keyed by
`(method, path, error_type)`. -/
def MetricsRegistry.get_error_count (r : MetricsRegistry) (method path error_type : String) :
    Counter × MetricsRegistry :=
  let key := (method, path, error_type)
  match findVal key r.error_count with
  | some c => (c, r)
  | none => (⟨0⟩, { r with error_count := r.error_count ++ [(key, ⟨0⟩)] })

/-! Python's tuple comparison, used by `sorted(dict.items())` in `export`,
is lexicographic; dict keys are distinct so only the key part decides. -/

/-- Lexicographic order on a pair: first components strictly, then `r`. -/
def lexLe {α β : Type} [LinearOrder α] (r : β → β → Prop) (x y : α × β) : Prop :=
  x.1 < y.1 ∨ (x.1 = y.1 ∧ r x.2 y.2)

instance lexLe.instDecidableRel {α β : Type} [LinearOrder α] (r : β → β → Prop)
    [DecidableRel r] : DecidableRel (lexLe (α := α) r) := fun x y =>
  decidable_of_iff (x.1 < y.1 ∨ (x.1 = y.1 ∧ r x.2 y.2)) Iff.rfl

instance lexLe.instIsTotal {α β : Type} [LinearOrder α] (r : β → β → Prop)
    [IsTotal β r] : IsTotal (α × β) (lexLe r) := by
  constructor
  intro x y
  rcases lt_trichotomy x.1 y.1 with h | h | h
  · exact Or.inl (Or.inl h)
  · rcases IsTotal.total (r := r) x.2 y.2 with h2 | h2
    · exact Or.inl (Or.inr ⟨h, h2⟩)
    · exact Or.inr (Or.inr ⟨h.symm, h2⟩)
  · exact Or.inr (Or.inl h)

instance lexLe.instIsTrans {α β : Type} [LinearOrder α] (r : β → β → Prop)
    [IsTrans β r] : IsTrans (α × β) (lexLe r) := by
  constructor
  rintro a b c (hab | ⟨hab, hab2⟩) (hbc | ⟨hbc, hbc2⟩)
  · exact Or.inl (lt_trans hab hbc)
  · exact Or.inl (hbc ▸ hab)
  · exact Or.inl (hab ▸ hbc)
  · exact Or.inr ⟨hab.trans hbc, Trans.trans hab2 hbc2⟩

/-- Compare key/value pairs by their key only. -/
def onFst {κ V : Type} (r : κ → κ → Prop) (x y : κ × V) : Prop := r x.1 y.1

instance onFst.instDecidableRel {κ V : Type} (r : κ → κ → Prop) [DecidableRel r] :
    DecidableRel (onFst (V := V) r) := fun x y => by
  unfold onFst; infer_instance

instance onFst.instIsTotal {κ V : Type} (r : κ → κ → Prop) [IsTotal κ r] :
    IsTotal (κ × V) (onFst r) :=
  ⟨fun x y => IsTotal.total (r := r) x.1 y.1⟩

instance onFst.instIsTrans {κ V : Type} (r : κ → κ → Prop) [IsTrans κ r] :
    IsTrans (κ × V) (onFst r) :=
  ⟨fun _ _ _ h h' => Trans.trans (r := r) h h'⟩

/-- The key order on `(method, path, status)` tuples. -/
def statusKeyLe : (String × String × ℤ) → (String × String × ℤ) → Prop :=
  lexLe (lexLe ((· ≤ ·) : ℤ → ℤ → Prop))

/-- The key order on `(method, path)` tuples. -/
def pathKeyLe : (String × String) → (String × String) → Prop :=
  lexLe ((· ≤ ·) : String → String → Prop)

/-- The key order on `(method, path, error_type)` tuples. -/
def errorKeyLe : (String × String × String) → (String × String × String) → Prop :=
  lexLe (lexLe ((· ≤ ·) : String → String → Prop))

instance statusKeyLe.instDecidableRel : DecidableRel statusKeyLe := by
  unfold statusKeyLe; infer_instance

instance statusKeyLe.instIsTotal : IsTotal (String × String × ℤ) statusKeyLe := by
  unfold statusKeyLe; infer_instance

instance statusKeyLe.instIsTrans : IsTrans (String × String × ℤ) statusKeyLe := by
  unfold statusKeyLe; infer_instance

instance pathKeyLe.instDecidableRel : DecidableRel pathKeyLe := by
  unfold pathKeyLe; infer_instance

instance pathKeyLe.instIsTotal : IsTotal (String × String) pathKeyLe := by
  unfold pathKeyLe; infer_instance

instance pathKeyLe.instIsTrans : IsTrans (String × String) pathKeyLe := by
  unfold pathKeyLe; infer_instance

instance errorKeyLe.instDecidableRel : DecidableRel errorKeyLe := by
  unfold errorKeyLe; infer_instance

instance errorKeyLe.instIsTotal : IsTotal (String × String × String) errorKeyLe := by
  unfold errorKeyLe; infer_instance

instance errorKeyLe.instIsTrans : IsTrans (String × String × String) errorKeyLe := by
  unfold errorKeyLe; infer_instance

/-- Embeds `sorted(d.items())`: sort the pairs of a dict by key. -/
def sortPairs {κ V : Type} (r : κ → κ → Prop) [DecidableRel r]
    (l : List (κ × V)) : List (κ × V) :=
  l.insertionSort (onFst r)

/-- The five metric families of `export`. -/
inductive Fam : Type where
  | appInfo
  | requests
  | duration
  | inProgress
  | errors
deriving DecidableEq

/-- One output line of `export`, structured: each constructor mirrors one
`lines.append(f"...")` in the source, carrying the same data (the fixed
HELP text and the family/metric names are determined by the `Fam` tag). -/
inductive Line : Type where
  | help (f : Fam) (app : String)
  | typeOf (f : Fam) (app : String)
  | appInfoSeries (app : String) (labels : List (String × String))
  | requestSeries (app method path : String) (status : ℤ) (value : ℤ)
  | durationBucket (app method path : String) (le : ℚ) (c : ℕ)
  | durationBucketInf (app method path : String) (c : ℕ)
  | durationSum (app method path : String) (s : ℚ)
  | durationCount (app method path : String) (c : ℕ)
  | inProgressSeries (app method path : String) (v : ℚ)
  | errorSeries (app method path error_type : String) (value : ℤ)
  | blank
deriving DecidableEq

/-- The family a line belongs to (`blank` belongs to none). -/
def Line.fam : Line → Option Fam
  | .help f _ => some f
  | .typeOf f _ => some f
  | .appInfoSeries _ _ => some .appInfo
  | .requestSeries _ _ _ _ _ => some .requests
  | .durationBucket _ _ _ _ _ => some .duration
  | .durationBucketInf _ _ _ _ => some .duration
  | .durationSum _ _ _ _ => some .duration
  | .durationCount _ _ _ _ => some .duration
  | .inProgressSeries _ _ _ _ => some .inProgress
  | .errorSeries _ _ _ _ _ => some .errors
  | .blank => none

/-- The block of lines `export` emits for one `(method, path)` histogram:
per-bucket cumulative lines in dict order, then `le="+Inf"` with the total
count, then `_sum`, then `_count`. -/
def histogramLines (app method path : String) (h : Histogram) : List Line :=
  (h.get_bucket_counts.map fun bc => .durationBucket app method path bc.1 bc.2) ++
    [.durationBucketInf app method path h.count,
     .durationSum app method path h.sum,
     .durationCount app method path h.count]

/-- The `# App info` section of `export`: emitted only when app info has
been set. -/
def appInfoBlock (r : MetricsRegistry) : List Line :=
  if r.app_info.isEmpty then [] else
    [.help .appInfo r.app_name, .typeOf .appInfo r.app_name,
     .appInfoSeries r.app_name r.app_info, .blank]

/-- The `# Request count` section of `export`. -/
def requestBlock (r : MetricsRegistry) : List Line :=
  if r.request_count.isEmpty then [] else
    [.help .requests r.app_name, .typeOf .requests r.app_name] ++
    ((sortPairs statusKeyLe r.request_count).map fun kc =>
      .requestSeries r.app_name kc.1.1 kc.1.2.1 kc.1.2.2 kc.2.value) ++ [.blank]

/-- The `# Request latency histogram` section of `export`. -/
def durationBlock (r : MetricsRegistry) : List Line :=
  if r.request_latency.isEmpty then [] else
    [.help .duration r.app_name, .typeOf .duration r.app_name] ++
    ((sortPairs pathKeyLe r.request_latency).map fun kh =>
      histogramLines r.app_name kh.1.1 kh.1.2 kh.2).flatten ++ [.blank]

/-- The `# Requests in progress` section of `export`. -/
def inProgressBlock (r : MetricsRegistry) : List Line :=
  if r.request_in_progress.isEmpty then [] else
    [.help .inProgress r.app_name, .typeOf .inProgress r.app_name] ++
    ((sortPairs pathKeyLe r.request_in_progress).map fun kg =>
      .inProgressSeries r.app_name kg.1.1 kg.1.2 kg.2.value) ++ [.blank]

/-- The `# Error count` section of `export`. -/
def errorBlock (r : MetricsRegistry) : List Line :=
  if r.error_count.isEmpty then [] else
    [.help .errors r.app_name, .typeOf .errors r.app_name] ++
    ((sortPairs errorKeyLe r.error_count).map fun kc =>
      .errorSeries r.app_name kc.1.1 kc.1.2.1 kc.1.2.2 kc.2.value) ++ [.blank]

/-- Embeds `MetricsRegistry.export`, producing the structured line list: for each
non-empty family a HELP line, a TYPE line, the series lines over
`sorted(dict.items())`, and a trailing blank line. -/
def MetricsRegistry.exportLines (r : MetricsRegistry) : List Line :=
  appInfoBlock r ++ requestBlock r ++ durationBlock r ++ inProgressBlock r ++ errorBlock r

/-! ## Metrics middleware

`MetricsMiddleware.dispatch` is embedded operationally: it emits the ordered
list of registry operations it performs (its side effects) together with
what it returns or raises. `applyEvent` gives these events their meaning on
a registry state. The downstream handler is abstracted by its outcome, and
the elapsed `time.perf_counter()` difference by an input `duration`. -/

/-- One registry side effect of the middleware, in program order. -/
inductive MWEvent : Type where
  | gaugeInc (method path : String)
  | observeLatency (method path : String) (duration : ℚ)
  | countInc (method path : String) (status : ℤ)
  | errInc (method path error_label : String)
  | gaugeDec (method path : String)
deriving DecidableEq

/-- What the downstream `call_next` does: return a response with a status
code, or raise an exception with a type name. -/
inductive Outcome : Type where
  | success (status : ℤ)
  | raises (ename : String)
deriving DecidableEq

/-- What `dispatch` itself does: return the downstream response unmodified,
or re-raise the downstream exception. -/
inductive DispatchResult : Type where
  | response (status : ℤ)
  | raised (ename : String)
deriving DecidableEq

/-- The middleware configuration: `__init__` stores the registry's app name
and `set(exclude_paths or ["/healthz", "/metrics", "/docs", "/redoc"])`
(an empty list argument is falsy, so it also selects the default). -/
structure MWConfig where
  app_name : String
  exclude_paths : List String

/-- Embeds `MetricsMiddleware.__init__`'s exclusion-set computation. -/
def MWConfig.init (app_name : String) (exclude_paths : Option (List String)) : MWConfig :=
  ⟨app_name,
   match exclude_paths with
   | none => ["/healthz", "/metrics", "/docs", "/redoc"]
   | some [] => ["/healthz", "/metrics", "/docs", "/redoc"]
   | some l => l⟩

/-- The request data `dispatch` reads: the literal URL path, the method, and
the resolved path template (`_get_path_template` queries the framework's
route table, abstracted here as an input). -/
structure RequestInfo where
  path : String
  method : String
  path_template : String

/-- Python truthiness of the `error_type` variable (`None` or a string). -/
def truthyStr : Option String → Bool
  | none => false
  | some s => s ≠ ""

/-- Embeds `error_type or "http_5xx"`. -/
def errorLabel : Option String → String
  | none => "http_5xx"
  | some s => if s = "" then "http_5xx" else s

/-- Embeds `MetricsMiddleware.dispatch`: on an excluded literal path, no events and
a pass-through result; otherwise the in-progress gauge increment, then the
`finally` block's bookkeeping in program order around the outcome. -/
def dispatch (cfg : MWConfig) (req : RequestInfo) (outcome : Outcome) (duration : ℚ) :
    List MWEvent × DispatchResult :=
  if req.path ∈ cfg.exclude_paths then
    ([], match outcome with
         | .success s => .response s
         | .raises e => .raised e)
  else
    let m := req.method
    let p := req.path_template
    let status : ℤ := match outcome with | .success s => s | .raises _ => 500
    let error_type : Option String := match outcome with
      | .success _ => none
      | .raises e => some e
    ([.gaugeInc m p, .observeLatency m p duration, .countInc m p status] ++
      (if truthyStr error_type || status ≥ 500 then
        [.errInc m p (errorLabel error_type)] else []) ++
      [.gaugeDec m p],
     match outcome with
     | .success s => .response s
     | .raises e => .raised e)

/-- Increment the counter stored at `key` (a mutation through the shared
`Counter` object returned by `get_request_count`). -/
def MetricsRegistry.incRequestCount (r : MetricsRegistry) (method path : String)
    (status : ℤ) : MetricsRegistry :=
  let (c, r') := r.get_request_count method path status
  { r' with request_count := setVal (method, path, status) (c.inc) r'.request_count }

/-- Observe a duration through the shared `Histogram` object returned by
`get_request_latency`. -/
def MetricsRegistry.observeLatency (r : MetricsRegistry) (method path : String)
    (duration : ℚ) : MetricsRegistry :=
  let (h, r') := r.get_request_latency method path
  { r' with request_latency := setVal (method, path) (h.observe duration) r'.request_latency }

/-- Increment the gauge stored at `key` through the shared `Gauge` object. -/
def MetricsRegistry.incInProgress (r : MetricsRegistry) (method path : String) :
    MetricsRegistry :=
  let (g, r') := r.get_requests_in_progress method path
  { r' with request_in_progress := setVal (method, path) (g.inc) r'.request_in_progress }

/-- Decrement the gauge stored at `key` through the shared `Gauge` object. -/
def MetricsRegistry.decInProgress (r : MetricsRegistry) (method path : String) :
    MetricsRegistry :=
  let (g, r') := r.get_requests_in_progress method path
  { r' with request_in_progress := setVal (method, path) (g.dec) r'.request_in_progress }

/-- Increment the error counter through the shared `Counter` object. -/
def MetricsRegistry.incErrorCount (r : MetricsRegistry) (method path error_type : String) :
    MetricsRegistry :=
  let (c, r') := r.get_error_count method path error_type
  { r' with error_count := setVal (method, path, error_type) (c.inc) r'.error_count }

/-- The meaning of one middleware event on the registry state. -/
def applyEvent (r : MetricsRegistry) : MWEvent → MetricsRegistry
  | .gaugeInc m p => r.incInProgress m p
  | .observeLatency m p d => r.observeLatency m p d
  | .countInc m p s => r.incRequestCount m p s
  | .errInc m p e => r.incErrorCount m p e
  | .gaugeDec m p => r.decInProgress m p

/-- Run a list of middleware events on the registry state. -/
def applyEvents (r : MetricsRegistry) (es : List MWEvent) : MetricsRegistry :=
  es.foldl applyEvent r

/-! ## Global registry table and the metrics endpoint -/

/-- The module-level `_metrics_registries` dict, keyed by app name. -/
abbrev RegistryTable : Type := List (String × MetricsRegistry)

/-- Embeds `get_metrics_registry(app_name="fastapi_bootstrap")`: look up the
registry for `app_name`, creating and storing a fresh one if absent. -/
def get_metrics_registry (table : RegistryTable)
    (app_name : String := "fastapi_bootstrap") : MetricsRegistry × RegistryTable :=
  match findVal app_name table with
  | some r => (r, table)
  | none =>
    (MetricsRegistry.init app_name, table ++ [(app_name, MetricsRegistry.init app_name)])

/-- The handler `get_metrics_router(path, ...)` registers at `path`: it
calls `get_metrics_registry()` with no argument and exports that registry.
The `path` argument only names the route, so it is ignored by the body. -/
def metricsEndpoint (path : String) (table : RegistryTable) : List Line :=
  (get_metrics_registry table).1.exportLines

/-! ## Lock discipline of the primitives

Each method body is transcribed as its sequence of lock and state-field
accesses, in program order, exactly as the `with self._lock:` blocks and
attribute reads/writes appear in the source. -/

/-- A lock or state access performed by a primitive's method. -/
inductive LockEvent : Type where
  | acquire
  | release
  | readState (f : String)
  | writeState (f : String)
deriving DecidableEq

/-- Embeds `Counter.inc`: `with self._lock: self._value += value`. -/
def counterIncTrace : List LockEvent :=
  [.acquire, .readState "_value", .writeState "_value", .release]

/-- The `Counter.value` property: `return self._value` (no lock). -/
def counterValueTrace : List LockEvent :=
  [.readState "_value"]

/-- Embeds `Gauge.set`: `with self._lock: self._value = value`. -/
def gaugeSetTrace : List LockEvent :=
  [.acquire, .writeState "_value", .release]

/-- Embeds `Gauge.inc`: `with self._lock: self._value += value`. -/
def gaugeIncTrace : List LockEvent :=
  [.acquire, .readState "_value", .writeState "_value", .release]

/-- Embeds `Gauge.dec`: `with self._lock: self._value -= value`. -/
def gaugeDecTrace : List LockEvent :=
  [.acquire, .readState "_value", .writeState "_value", .release]

/-- The `Gauge.value` property: `return self._value` (no lock). -/
def gaugeValueTrace : List LockEvent :=
  [.readState "_value"]

/-- Embeds `Histogram.observe`: under the lock, update `_sum` and `_count`, then
bump each of the `n` matching bucket tallies in `_counts`. -/
def histogramObserveTrace (n : ℕ) : List LockEvent :=
  [LockEvent.acquire, .readState "_sum", .writeState "_sum",
   .readState "_count", .writeState "_count"] ++
    (List.replicate n (LockEvent.readState "_counts") |>.flatMap
      fun e => [e, LockEvent.writeState "_counts"]) ++
    [LockEvent.release]

/-- The `Histogram.sum` property: `return self._sum` (no lock). -/
def histogramSumTrace : List LockEvent :=
  [.readState "_sum"]

/-- The `Histogram.count` property: `return self._count` (no lock). -/
def histogramCountTrace : List LockEvent :=
  [.readState "_count"]

/-- Scan a trace, requiring every access satisfying `pred` to happen while
the lock is held. -/
def guardedFrom (pred : LockEvent → Bool) : Bool → List LockEvent → Bool
  | _, [] => true
  | _, .acquire :: rest => guardedFrom pred true rest
  | _, .release :: rest => guardedFrom pred false rest
  | locked, e :: rest => (!pred e || locked) && guardedFrom pred locked rest

/-- Every state mutation in the trace happens with the lock held. -/
def writesGuarded (t : List LockEvent) : Bool :=
  guardedFrom (fun e => match e with | .writeState _ => true | _ => false) false t

/-- Every state access (read or write) in the trace happens with the lock
held. -/
def accessesGuarded (t : List LockEvent) : Bool :=
  guardedFrom (fun e => match e with
    | .readState _ => true
    | .writeState _ => true
    | _ => false) false t

/-- The trace takes the lock at least once. -/
def takesLock (t : List LockEvent) : Bool :=
  t.any fun e => e = .acquire

/-! ## Payload truncation (logging collaborator)

Modelled from the spec: `truncate_strings_in_structure` is imported by
`tests/test_logging.py` from `fastapi_bootstrap.log.setup` but its
definition is not part of the sources provided; the model follows the
spec's words (structural copy; strings strictly longer than the threshold,
default 2000, become the marker `"[[truncated]]"`; other leaves and mapping
keys pass through; order preserved). -/

/-- A nested payload value built from mappings, sequences, strings and
scalars. Modelled from the spec: the input domain of
`truncate_strings_in_structure`. -/
inductive Value : Type where
  | str (s : String)
  | intVal (n : ℤ)
  | floatVal (q : ℚ)
  | boolVal (b : Bool)
  | null
  | list (xs : List Value)
  | dict (entries : List (String × Value))

/-- The fixed truncation marker. -/
def truncationMarker : String := "[[truncated]]"

mutual

/-- Modelled from the spec: `truncate_strings_in_structure` at threshold
`t` (default 2000): replace every string strictly longer than `t` by the
marker, rebuild containers recursively, pass every other leaf through. -/
def truncate_strings_in_structure (t : ℕ) : Value → Value
  | .str s => if t < s.length then .str truncationMarker else .str s
  | .intVal n => .intVal n
  | .floatVal q => .floatVal q
  | .boolVal b => .boolVal b
  | .null => .null
  | .list xs => .list (truncateList t xs)
  | .dict es => .dict (truncateDict t es)

/-- Truncate each element of a sequence, in order. -/
def truncateList (t : ℕ) : List Value → List Value
  | [] => []
  | v :: vs => truncate_strings_in_structure t v :: truncateList t vs

/-- Truncate each mapping value, keeping every key and the entry order. -/
def truncateDict (t : ℕ) : List (String × Value) → List (String × Value)
  | [] => []
  | (k, v) :: es => (k, truncate_strings_in_structure t v) :: truncateDict t es

end

/-! ## Helpers for stating export-output properties -/

/-- The label tuples of the request-count series lines, in output order. -/
def requestKeys (ls : List Line) : List (String × String × ℤ) :=
  ls.filterMap fun l => match l with
    | .requestSeries _ m p s _ => some (m, p, s)
    | _ => none

/-- The label tuples of the histogram series (one `_count` line each), in
output order. -/
def durationSeriesKeys (ls : List Line) : List (String × String) :=
  ls.filterMap fun l => match l with
    | .durationCount _ m p _ => some (m, p)
    | _ => none

/-- The label tuples of the in-progress series lines, in output order. -/
def inProgressKeys (ls : List Line) : List (String × String) :=
  ls.filterMap fun l => match l with
    | .inProgressSeries _ m p _ => some (m, p)
    | _ => none

/-- The label tuples of the error series lines, in output order. -/
def errorKeys (ls : List Line) : List (String × String × String) :=
  ls.filterMap fun l => match l with
    | .errorSeries _ m p e _ => some (m, p, e)
    | _ => none

/-- Is this a histogram-family line labelled `(m, p)`? -/
def isDurationLineFor (m p : String) : Line → Bool
  | .durationBucket _ m' p' _ _ => m' == m && p' == p
  | .durationBucketInf _ m' p' _ => m' == m && p' == p
  | .durationSum _ m' p' _ => m' == m && p' == p
  | .durationCount _ m' p' _ => m' == m && p' == p
  | _ => false

/-- The histogram-family lines labelled `(m, p)`, in output order. -/
def durationLinesFor (m p : String) (ls : List Line) : List Line :=
  ls.filter (isDurationLineFor m p)

/-- Number of `# HELP` lines of family `f`. -/
def helpCount (f : Fam) (ls : List Line) : ℕ :=
  ls.countP fun l => match l with
    | .help f' _ => f' == f
    | _ => false

/-- Number of `# TYPE` lines of family `f`. -/
def typeCount (f : Fam) (ls : List Line) : ℕ :=
  ls.countP fun l => match l with
    | .typeOf f' _ => f' == f
    | _ => false

/-- Number of lines (of any shape) belonging to family `f`. -/
def famCount (f : Fam) (ls : List Line) : ℕ :=
  ls.countP fun l => l.fam == some f

/-- Number of app-info series lines. -/
def appInfoSeriesCount (ls : List Line) : ℕ :=
  ls.countP fun l => match l with
    | .appInfoSeries _ _ => true
    | _ => false

mutual

/-- Every string leaf of the value has length at most `t`. -/
def allStringsLe (t : ℕ) : Value → Bool
  | .str s => decide (s.length ≤ t)
  | .intVal _ => true
  | .floatVal _ => true
  | .boolVal _ => true
  | .null => true
  | .list xs => allStringsLeList t xs
  | .dict es => allStringsLeDict t es

/-- Embeds `allStringsLe` over a sequence. -/
def allStringsLeList (t : ℕ) : List Value → Bool
  | [] => true
  | v :: vs => allStringsLe t v && allStringsLeList t vs

/-- Embeds `allStringsLe` over mapping values. -/
def allStringsLeDict (t : ℕ) : List (String × Value) → Bool
  | [] => true
  | (_, v) :: es => allStringsLe t v && allStringsLeDict t es

end

/-! ## Shared lemmas -/

lemma findVal_append_self {κ V : Type} [DecidableEq κ] (k : κ) (v : V) :
    ∀ l : List (κ × V), findVal k l = none → findVal k (l ++ [(k, v)]) = some v := by
  intro l
  induction l with
  | nil => intro _; simp [findVal]
  | cons kv rest ih =>
    intro h
    obtain ⟨k', v'⟩ := kv
    by_cases hk : k = k'
    · simp [findVal, hk] at h
    · simp only [List.cons_append, findVal, if_neg hk] at h ⊢
      exact ih h

lemma findVal_setVal_ne {κ V : Type} [DecidableEq κ] (k k' : κ) (v : V) (h : k ≠ k') :
    ∀ l : List (κ × V), findVal k (setVal k' v l) = findVal k l := by
  intro l
  induction l with
  | nil => simp [setVal, findVal, h]
  | cons kv rest ih =>
    obtain ⟨k₀, v₀⟩ := kv
    by_cases hk : k' = k₀
    · subst hk
      simp [setVal, findVal, h]
    · by_cases hkk : k = k₀
      · simp [setVal, findVal, if_neg hk, hkk]
      · simp [setVal, findVal, if_neg hk, hkk, ih]

/-! ## C7: Counter behaviour -/

/-- C7, counterexample: calling `inc` with the negative argument `-1` on a
fresh `Counter` makes the value decrease, so the value is not
monotonically non-decreasing over arbitrary `inc` calls. -/
theorem counter_inc_negative_decreases :
    ((Counter.mk 0).inc (-1)).value < (Counter.mk 0).value := by
  decide

/-- C7, amended: after any sequence of `inc` calls the final value equals
the initial value plus the sum of the arguments; and provided every
argument is nonnegative, each call (and hence the whole sequence) never
decreases the value. -/
theorem counter_inc_sum_and_monotone (c : Counter) (vs : List ℤ) :
    ((vs.foldl (fun a v => a.inc v) c).value = c.value + vs.sum) ∧
    (∀ v : ℤ, 0 ≤ v → c.value ≤ (c.inc v).value) ∧
    ((∀ v ∈ vs, (0 : ℤ) ≤ v) → c.value ≤ (vs.foldl (fun a v => a.inc v) c).value) := by
  refine ⟨?_, ?_, ?_⟩
  · induction vs generalizing c with
    | nil => simp
    | cons v rest ih =>
      rw [List.foldl_cons, ih (c.inc v), List.sum_cons]
      simp only [Counter.inc]
      ring
  · intro v hv
    simp only [Counter.inc]
    omega
  · induction vs generalizing c with
    | nil => simp
    | cons v rest ih =>
      intro hnn
      have h1 : c.value ≤ (c.inc v).value := by
        have := hnn v (by simp)
        simp only [Counter.inc]
        omega
      exact h1.trans (ih (c.inc v) fun w hw => hnn w (by simp [hw]))

/-- C7, amended, witness at a concrete input. -/
theorem counter_inc_sum_and_monotone_witness :
    ((([1, 2] : List ℤ).foldl (fun a v => a.inc v) (Counter.mk 0)).value =
      (Counter.mk 0).value + ([1, 2] : List ℤ).sum) ∧
    ((Counter.mk 0).value ≤
      (([1, 2] : List ℤ).foldl (fun a v => a.inc v) (Counter.mk 0)).value) :=
  ⟨(counter_inc_sum_and_monotone (Counter.mk 0) [1, 2]).1,
   (counter_inc_sum_and_monotone (Counter.mk 0) [1, 2]).2.2 (by decide)⟩

/-! ## C2: middleware bookkeeping on success and exception -/

/-- C2: on a non-excluded path, when the handler raises an exception with a
nonempty type name `e`, `dispatch` performs, in order: the in-progress
gauge increment, the latency observation, the request-count increment at
the default status 500, the error-count increment labelled `e`, and the
gauge decrement — and re-raises the original exception. On success with
status `s` the same bookkeeping runs with the final status `s`, the error
increment (labelled `"http_5xx"`) happening exactly when `s >= 500`. -/
theorem dispatch_bookkeeping (cfg : MWConfig) (req : RequestInfo) (e : String)
    (d : ℚ) (s : ℤ) (hex : req.path ∉ cfg.exclude_paths) (he : e ≠ "") :
    (dispatch cfg req (.raises e) d =
      ([.gaugeInc req.method req.path_template,
        .observeLatency req.method req.path_template d,
        .countInc req.method req.path_template 500,
        .errInc req.method req.path_template e,
        .gaugeDec req.method req.path_template], .raised e)) ∧
    (dispatch cfg req (.success s) d =
      ([.gaugeInc req.method req.path_template,
        .observeLatency req.method req.path_template d,
        .countInc req.method req.path_template s] ++
        (if s ≥ 500 then [.errInc req.method req.path_template "http_5xx"] else []) ++
       [.gaugeDec req.method req.path_template], .response s)) := by
  constructor
  · simp [dispatch, hex, truthyStr, errorLabel, he]
  · simp [dispatch, hex, truthyStr, errorLabel]

/-- C2, witness at a concrete input. -/
theorem dispatch_bookkeeping_witness :
    dispatch (MWConfig.init "fastapi_bootstrap" none)
        ⟨"/api", "GET", "/api"⟩ (.raises "ValueError") 0 =
      ([.gaugeInc "GET" "/api", .observeLatency "GET" "/api" 0,
        .countInc "GET" "/api" 500, .errInc "GET" "/api" "ValueError",
        .gaugeDec "GET" "/api"], .raised "ValueError") :=
  (dispatch_bookkeeping (MWConfig.init "fastapi_bootstrap" none)
    ⟨"/api", "GET", "/api"⟩ "ValueError" 0 200 (by decide) (by decide)).1

/-! ## C3: excluded paths are not instrumented -/

/-- C3: when the literal request path is in the exclusion set (by default
`/healthz`, `/metrics`, `/docs`, `/redoc`), `dispatch` performs no registry
operation — so every registry state is left unchanged — and passes the
downstream outcome through unmodified. -/
theorem dispatch_excluded_passthrough (cfg : MWConfig) (req : RequestInfo)
    (oc : Outcome) (d : ℚ) (hex : req.path ∈ cfg.exclude_paths) :
    ((dispatch cfg req oc d).1 = []) ∧
    (∀ r : MetricsRegistry, applyEvents r (dispatch cfg req oc d).1 = r) ∧
    ((dispatch cfg req oc d).2 =
      (match oc with | .success s => .response s | .raises e => .raised e)) ∧
    (∀ a : String, (MWConfig.init a none).exclude_paths =
      ["/healthz", "/metrics", "/docs", "/redoc"]) := by
  refine ⟨?_, ?_, ?_, ?_⟩
  · simp [dispatch, hex]
  · intro r
    simp [dispatch, hex, applyEvents]
  · simp [dispatch, hex]
  · intro a
    simp [MWConfig.init]

/-- C3, witness at a concrete input. -/
theorem dispatch_excluded_passthrough_witness :
    ((dispatch (MWConfig.init "fastapi_bootstrap" none)
        ⟨"/metrics", "GET", "/metrics"⟩ (.success 200) 0).1 = []) ∧
    (∀ r : MetricsRegistry, applyEvents r
        (dispatch (MWConfig.init "fastapi_bootstrap" none)
          ⟨"/metrics", "GET", "/metrics"⟩ (.success 200) 0).1 = r) := by
  have h := dispatch_excluded_passthrough (MWConfig.init "fastapi_bootstrap" none)
    ⟨"/metrics", "GET", "/metrics"⟩ (.success 200) 0 (by decide)
  exact ⟨h.1, h.2.1⟩

/-! ## C9: lock discipline of the primitives -/

/-- C9, counterexample: the `value`/`sum`/`count` property reads are plain
attribute reads performed without the primitive's lock, so they are not
mutex-guarded snapshots as the claim states. -/
theorem value_reads_not_lock_guarded :
    accessesGuarded counterValueTrace = false ∧
    accessesGuarded gaugeValueTrace = false ∧
    accessesGuarded histogramSumTrace = false ∧
    accessesGuarded histogramCountTrace = false := by
  decide

lemma guardedFrom_locked_append_release (p : LockEvent → Bool) :
    ∀ l : List LockEvent,
      (∀ e ∈ l, e ≠ LockEvent.acquire ∧ e ≠ LockEvent.release) →
      guardedFrom p true (l ++ [LockEvent.release]) = true := by
  intro l
  induction l with
  | nil => intro _; simp [guardedFrom]
  | cons e rest ih =>
    intro h
    have he := h e (by simp)
    cases e with
    | acquire => exact absurd rfl he.1
    | release => exact absurd rfl he.2
    | readState f =>
      simp only [List.cons_append, guardedFrom, Bool.or_true, Bool.not_eq_true,
        Bool.true_and]
      exact ih fun e' he' => h e' (by simp [he'])
    | writeState f =>
      simp only [List.cons_append, guardedFrom, Bool.or_true, Bool.not_eq_true,
        Bool.true_and]
      exact ih fun e' he' => h e' (by simp [he'])

/-- C9, amended: every mutation of a primitive's state (`Counter.inc`,
`Gauge.set`/`inc`/`dec`, `Histogram.observe` for any number of matching
buckets) runs entirely with the primitive's own lock held, while the
`value`/`sum`/`count` reads never take the lock at all (they are plain
unsynchronized attribute reads). -/
theorem primitive_lock_discipline :
    (writesGuarded counterIncTrace = true ∧ accessesGuarded counterIncTrace = true) ∧
    (writesGuarded gaugeSetTrace = true ∧ accessesGuarded gaugeSetTrace = true) ∧
    (writesGuarded gaugeIncTrace = true ∧ accessesGuarded gaugeIncTrace = true) ∧
    (writesGuarded gaugeDecTrace = true ∧ accessesGuarded gaugeDecTrace = true) ∧
    (∀ n : ℕ, writesGuarded (histogramObserveTrace n) = true ∧
      accessesGuarded (histogramObserveTrace n) = true) ∧
    (takesLock counterValueTrace = false ∧ takesLock gaugeValueTrace = false ∧
      takesLock histogramSumTrace = false ∧ takesLock histogramCountTrace = false) := by
  refine ⟨by decide, by decide, by decide, by decide, ?_, by decide⟩
  intro n
  have hmem : ∀ e ∈ (List.replicate n (LockEvent.readState "_counts")).flatMap
      (fun e => [e, LockEvent.writeState "_counts"]),
      e ≠ LockEvent.acquire ∧ e ≠ LockEvent.release := by
    intro e he
    simp only [List.mem_flatMap, List.mem_replicate] at he
    obtain ⟨a, ⟨-, rfl⟩, hmem⟩ := he
    simp only [List.mem_cons, List.mem_singleton] at hmem
    rcases hmem with rfl | rfl | h
    · exact ⟨by simp, by simp⟩
    · exact ⟨by simp, by simp⟩
    · simp at h
  constructor
  · unfold writesGuarded histogramObserveTrace
    simp only [List.cons_append, List.append_assoc, guardedFrom]
    exact guardedFrom_locked_append_release _ _ hmem
  · unfold accessesGuarded histogramObserveTrace
    simp only [List.cons_append, List.append_assoc, guardedFrom]
    exact guardedFrom_locked_append_release _ _ hmem

/-! ## C4: get-or-create is idempotent -/

/-- C4: each of the four registry get-or-create operations is idempotent:
calling it again with the same labels on the registry returned by the
first call yields the same primitive and the same registry state. -/
theorem get_or_create_idempotent (r : MetricsRegistry) (m p : String) (s : ℤ)
    (et : String) :
    ((r.get_request_count m p s).2.get_request_count m p s =
      r.get_request_count m p s) ∧
    ((r.get_request_latency m p).2.get_request_latency m p =
      r.get_request_latency m p) ∧
    ((r.get_requests_in_progress m p).2.get_requests_in_progress m p =
      r.get_requests_in_progress m p) ∧
    ((r.get_error_count m p et).2.get_error_count m p et =
      r.get_error_count m p et) := by
  refine ⟨?_, ?_, ?_, ?_⟩
  · cases h : findVal (m, p, s) r.request_count with
    | some c => simp [MetricsRegistry.get_request_count, h]
    | none =>
      simp [MetricsRegistry.get_request_count, h, findVal_append_self _ _ _ h]
  · cases h : findVal (m, p) r.request_latency with
    | some c => simp [MetricsRegistry.get_request_latency, h]
    | none =>
      simp [MetricsRegistry.get_request_latency, h, findVal_append_self _ _ _ h]
  · cases h : findVal (m, p) r.request_in_progress with
    | some c => simp [MetricsRegistry.get_requests_in_progress, h]
    | none =>
      simp [MetricsRegistry.get_requests_in_progress, h, findVal_append_self _ _ _ h]
  · cases h : findVal (m, p, et) r.error_count with
    | some c => simp [MetricsRegistry.get_error_count, h]
    | none =>
      simp [MetricsRegistry.get_error_count, h, findVal_append_self _ _ _ h]

/-! ## C10: the metrics endpoint always exports the default registry -/

/-- C10: the handler installed by `get_metrics_router` exports the registry
looked up with no app name, i.e. the `"fastapi_bootstrap"` entry, for every
`path` argument: its output depends only on that entry of the global table,
so registries stored under any other app name never influence it. -/
theorem metrics_endpoint_default_registry :
    (∀ (p₁ p₂ : String) (t t' : RegistryTable),
      findVal "fastapi_bootstrap" t = findVal "fastapi_bootstrap" t' →
      metricsEndpoint p₁ t = metricsEndpoint p₂ t') ∧
    (∀ (p name : String) (r' : MetricsRegistry) (t : RegistryTable),
      name ≠ "fastapi_bootstrap" →
      metricsEndpoint p (setVal name r' t) = metricsEndpoint p t) := by
  have key : ∀ (p₁ p₂ : String) (t t' : RegistryTable),
      findVal "fastapi_bootstrap" t = findVal "fastapi_bootstrap" t' →
      metricsEndpoint p₁ t = metricsEndpoint p₂ t' := by
    intro p₁ p₂ t t' h
    unfold metricsEndpoint get_metrics_registry
    rw [h]
    cases findVal "fastapi_bootstrap" t' <;> rfl
  refine ⟨key, ?_⟩
  intro p name r' t hne
  exact key p p _ t (findVal_setVal_ne _ _ _ (Ne.symm hne) t)

/-- C10, witness at concrete inputs. -/
theorem metrics_endpoint_default_registry_witness :
    (metricsEndpoint "/metrics" ([] : RegistryTable) =
      metricsEndpoint "/custom-metrics" ([] : RegistryTable)) ∧
    (metricsEndpoint "/metrics"
        (setVal "myapp" (MetricsRegistry.init "myapp") ([] : RegistryTable)) =
      metricsEndpoint "/metrics" ([] : RegistryTable)) :=
  ⟨metrics_endpoint_default_registry.1 "/metrics" "/custom-metrics" [] [] rfl,
   metrics_endpoint_default_registry.2 "/metrics" "myapp"
     (MetricsRegistry.init "myapp") [] (by decide)⟩

/-! ## C1: histogram bucket counts at the failing input -/

/-- C1, evaluation at the failing input: on a fresh default `Histogram`,
after observing `0.005`, `0.05` and `1.0`, `count` and `sum` are correct,
but the cumulative bucket count reported at boundary `0.05` is `5`, while
the number of observations `<= 0.05` is `2` (which is also what the
repository's own `test_bucket_counts` asserts): `observe` already tallies
every boundary at or above the value and `get_bucket_counts` accumulates
those tallies again. -/
theorem histogram_bucket_counts_failing_input :
    ((Histogram.init.observeAll [5/1000, 5/100, 1]).count = 3) ∧
    ((Histogram.init.observeAll [5/1000, 5/100, 1]).sum = 211/200) ∧
    (findVal ((5 : ℚ)/100)
      (Histogram.init.observeAll [5/1000, 5/100, 1]).get_bucket_counts = some 5) ∧
    (([5/1000, 5/100, 1] : List ℚ).countP (fun v => decide (v ≤ (5 : ℚ)/100)) = 2) := by
  refine ⟨?_, ?_, ?_, ?_⟩
  · norm_num [Histogram.observeAll, Histogram.observe, Histogram.init]
  · norm_num [Histogram.observeAll, Histogram.observe, Histogram.init]
  · norm_num [Histogram.observeAll, Histogram.observe, Histogram.get_bucket_counts,
      Histogram.init, defaultBuckets, findVal, List.insertionSort, List.orderedInsert,
      Function.update]
  · norm_num [List.countP_cons]

/-! ## C8: payload truncation (spec-modelled) -/

mutual

theorem allStringsLe_truncate_val (v : Value) :
    allStringsLe 2000 (truncate_strings_in_structure 2000 v) = true := by
  cases v with
  | str s =>
    by_cases h : 2000 < s.length
    · simp only [truncate_strings_in_structure, if_pos h, allStringsLe]
      decide
    · simp only [truncate_strings_in_structure, if_neg h, allStringsLe,
        decide_eq_true_eq]
      omega
  | intVal n => simp [truncate_strings_in_structure, allStringsLe]
  | floatVal q => simp [truncate_strings_in_structure, allStringsLe]
  | boolVal b => simp [truncate_strings_in_structure, allStringsLe]
  | null => simp [truncate_strings_in_structure, allStringsLe]
  | list xs =>
    simp only [truncate_strings_in_structure, allStringsLe]
    exact allStringsLe_truncate_list xs
  | dict es =>
    simp only [truncate_strings_in_structure, allStringsLe]
    exact allStringsLe_truncate_dict es

theorem allStringsLe_truncate_list (xs : List Value) :
    allStringsLeList 2000 (truncateList 2000 xs) = true := by
  cases xs with
  | nil => simp [truncateList, allStringsLeList]
  | cons v vs =>
    simp only [truncateList, allStringsLeList, Bool.and_eq_true]
    exact ⟨allStringsLe_truncate_val v, allStringsLe_truncate_list vs⟩

theorem allStringsLe_truncate_dict (es : List (String × Value)) :
    allStringsLeDict 2000 (truncateDict 2000 es) = true := by
  cases es with
  | nil => simp [truncateDict, allStringsLeDict]
  | cons kv rest =>
    obtain ⟨k, v⟩ := kv
    simp only [truncateDict, allStringsLeDict, Bool.and_eq_true]
    exact ⟨allStringsLe_truncate_val v, allStringsLe_truncate_dict rest⟩

end

lemma truncateList_eq_map (t : ℕ) :
    ∀ xs : List Value, truncateList t xs = xs.map (truncate_strings_in_structure t) := by
  intro xs
  induction xs with
  | nil => simp [truncateList]
  | cons v vs ih => simp [truncateList, ih]

lemma truncateDict_eq_map (t : ℕ) :
    ∀ es : List (String × Value),
      truncateDict t es = es.map fun kv => (kv.1, truncate_strings_in_structure t kv.2) := by
  intro es
  induction es with
  | nil => simp [truncateDict]
  | cons kv rest ih =>
    obtain ⟨k, v⟩ := kv
    simp [truncateDict, ih]

/-- C8 (spec-modelled): the truncation function keeps strings of length at
most the threshold unchanged, replaces strictly longer strings by the
13-character marker, passes non-string scalars through unchanged, rebuilds
sequences and mappings element-wise in order (so mapping keys and both
orders are preserved and keys are never truncated), and at the default
threshold 2000 every string in the output has length at most 2000. -/
theorem truncate_strings_in_structure_spec :
    (∀ (t : ℕ) (s : String), s.length ≤ t →
      truncate_strings_in_structure t (.str s) = .str s) ∧
    (∀ (t : ℕ) (s : String), t < s.length →
      truncate_strings_in_structure t (.str s) = .str truncationMarker) ∧
    (truncationMarker.length = 13) ∧
    (∀ (t : ℕ) (n : ℤ), truncate_strings_in_structure t (.intVal n) = .intVal n) ∧
    (∀ (t : ℕ) (q : ℚ), truncate_strings_in_structure t (.floatVal q) = .floatVal q) ∧
    (∀ (t : ℕ) (b : Bool), truncate_strings_in_structure t (.boolVal b) = .boolVal b) ∧
    (∀ t : ℕ, truncate_strings_in_structure t .null = .null) ∧
    (∀ (t : ℕ) (xs : List Value),
      truncate_strings_in_structure t (.list xs) =
        .list (xs.map (truncate_strings_in_structure t))) ∧
    (∀ (t : ℕ) (es : List (String × Value)),
      truncate_strings_in_structure t (.dict es) =
        .dict (es.map fun kv => (kv.1, truncate_strings_in_structure t kv.2))) ∧
    (∀ (t : ℕ) (es : List (String × Value)),
      (truncateDict t es).map Prod.fst = es.map Prod.fst) ∧
    (∀ v : Value, allStringsLe 2000 (truncate_strings_in_structure 2000 v) = true) := by
  refine ⟨?_, ?_, by decide, ?_, ?_, ?_, ?_, ?_, ?_, ?_, allStringsLe_truncate_val⟩
  · intro t s h
    simp [truncate_strings_in_structure, Nat.not_lt.mpr h]
  · intro t s h
    simp [truncate_strings_in_structure, h]
  · intro t n; simp [truncate_strings_in_structure]
  · intro t q; simp [truncate_strings_in_structure]
  · intro t b; simp [truncate_strings_in_structure]
  · intro t; simp [truncate_strings_in_structure]
  · intro t xs
    simp [truncate_strings_in_structure, truncateList_eq_map]
  · intro t es
    simp [truncate_strings_in_structure, truncateDict_eq_map]
  · intro t es
    simp [truncateDict_eq_map]

/-- C8, witness at concrete inputs for the two hypothesised conjuncts. -/
theorem truncate_strings_in_structure_spec_witness :
    (truncate_strings_in_structure 2000 (.str "hello") = .str "hello") ∧
    (truncate_strings_in_structure 3 (.str "hello") = .str truncationMarker) :=
  ⟨truncate_strings_in_structure_spec.1 2000 "hello" (by decide),
   truncate_strings_in_structure_spec.2.1 3 "hello" (by decide)⟩

/-! ## C6: one HELP/TYPE pair per non-empty family -/

lemma countP_eq_zero_of_fam {p : Line → Bool} {f : Fam}
    (hp : ∀ l, p l = true → l.fam = some f) :
    ∀ {ls : List Line}, (∀ l ∈ ls, l.fam ≠ some f) → ls.countP p = 0 := by
  intro ls hf
  rw [List.countP_eq_zero]
  intro a ha hpa
  exact hf a ha (hp a hpa)

lemma mem_appInfoBlock_fam (r : MetricsRegistry) :
    ∀ l ∈ appInfoBlock r, l.fam = some Fam.appInfo ∨ l.fam = none := by
  intro l hl
  unfold appInfoBlock at hl
  split at hl
  · simp at hl
  · simp only [List.mem_cons, List.not_mem_nil, or_false] at hl
    rcases hl with rfl | rfl | rfl | rfl <;> simp [Line.fam]

lemma mem_requestBlock_fam (r : MetricsRegistry) :
    ∀ l ∈ requestBlock r, l.fam = some Fam.requests ∨ l.fam = none := by
  intro l hl
  unfold requestBlock at hl
  split at hl
  · simp at hl
  · rcases List.mem_append.mp hl with h | h
    · rcases List.mem_append.mp h with h2 | h2
      · simp only [List.mem_cons, List.not_mem_nil, or_false] at h2
        rcases h2 with rfl | rfl <;> simp [Line.fam]
      · obtain ⟨kc, -, rfl⟩ := List.mem_map.mp h2
        simp [Line.fam]
    · simp only [List.mem_cons, List.not_mem_nil, or_false] at h
      subst h
      simp [Line.fam]

lemma mem_histogramLines_fam (a m p : String) (h : Histogram) :
    ∀ l ∈ histogramLines a m p h, l.fam = some Fam.duration := by
  intro l hl
  unfold histogramLines at hl
  rcases List.mem_append.mp hl with h2 | h2
  · obtain ⟨bc, -, rfl⟩ := List.mem_map.mp h2
    simp [Line.fam]
  · simp only [List.mem_cons, List.not_mem_nil, or_false] at h2
    rcases h2 with rfl | rfl | rfl <;> simp [Line.fam]

lemma mem_durationBlock_fam (r : MetricsRegistry) :
    ∀ l ∈ durationBlock r, l.fam = some Fam.duration ∨ l.fam = none := by
  intro l hl
  unfold durationBlock at hl
  split at hl
  · simp at hl
  · rcases List.mem_append.mp hl with h | h
    · rcases List.mem_append.mp h with h2 | h2
      · simp only [List.mem_cons, List.not_mem_nil, or_false] at h2
        rcases h2 with rfl | rfl <;> simp [Line.fam]
      · obtain ⟨sub, hsub, hmem⟩ := List.mem_flatten.mp h2
        obtain ⟨kh, -, rfl⟩ := List.mem_map.mp hsub
        exact Or.inl (mem_histogramLines_fam _ _ _ _ l hmem)
    · simp only [List.mem_cons, List.not_mem_nil, or_false] at h
      subst h
      simp [Line.fam]

lemma mem_inProgressBlock_fam (r : MetricsRegistry) :
    ∀ l ∈ inProgressBlock r, l.fam = some Fam.inProgress ∨ l.fam = none := by
  intro l hl
  unfold inProgressBlock at hl
  split at hl
  · simp at hl
  · rcases List.mem_append.mp hl with h | h
    · rcases List.mem_append.mp h with h2 | h2
      · simp only [List.mem_cons, List.not_mem_nil, or_false] at h2
        rcases h2 with rfl | rfl <;> simp [Line.fam]
      · obtain ⟨kg, -, rfl⟩ := List.mem_map.mp h2
        simp [Line.fam]
    · simp only [List.mem_cons, List.not_mem_nil, or_false] at h
      subst h
      simp [Line.fam]

lemma mem_errorBlock_fam (r : MetricsRegistry) :
    ∀ l ∈ errorBlock r, l.fam = some Fam.errors ∨ l.fam = none := by
  intro l hl
  unfold errorBlock at hl
  split at hl
  · simp at hl
  · rcases List.mem_append.mp hl with h | h
    · rcases List.mem_append.mp h with h2 | h2
      · simp only [List.mem_cons, List.not_mem_nil, or_false] at h2
        rcases h2 with rfl | rfl <;> simp [Line.fam]
      · obtain ⟨kc, -, rfl⟩ := List.mem_map.mp h2
        simp [Line.fam]
    · simp only [List.mem_cons, List.not_mem_nil, or_false] at h
      subst h
      simp [Line.fam]

lemma countP_block_ne {p : Line → Bool} {f g : Fam} (hp : ∀ l, p l = true → l.fam = some f)
    (hne : f ≠ g) (b : List Line)
    (hb : ∀ l ∈ b, l.fam = some g ∨ l.fam = none) : b.countP p = 0 := by
  refine countP_eq_zero_of_fam hp ?_
  intro l hl hfam
  rcases hb l hl with h | h
  · rw [hfam] at h
    exact hne (Option.some_injective _ h)
  · rw [hfam] at h
    exact Option.noConfusion h

lemma help_pred_fam (f : Fam) : ∀ l : Line,
    (match l with | Line.help g _ => g == f | _ => false) = true →
    l.fam = some f := by
  intro l h
  cases l <;> simp_all [Line.fam]

lemma type_pred_fam (f : Fam) : ∀ l : Line,
    (match l with | Line.typeOf g _ => g == f | _ => false) = true →
    l.fam = some f := by
  intro l h
  cases l <;> simp_all [Line.fam]

lemma appInfoSeries_pred_fam : ∀ l : Line,
    (match l with | Line.appInfoSeries _ _ => true | _ => false) = true →
    l.fam = some Fam.appInfo := by
  intro l h
  cases l <;> simp_all [Line.fam]

lemma fam_pred_fam (f : Fam) : ∀ l : Line,
    (l.fam == some f) = true → l.fam = some f := by
  intro l h
  simpa using h

lemma helpCount_append (f : Fam) (a b : List Line) :
    helpCount f (a ++ b) = helpCount f a + helpCount f b :=
  List.countP_append _ _ _

lemma typeCount_append (f : Fam) (a b : List Line) :
    typeCount f (a ++ b) = typeCount f a + typeCount f b :=
  List.countP_append _ _ _

lemma famCount_append (f : Fam) (a b : List Line) :
    famCount f (a ++ b) = famCount f a + famCount f b :=
  List.countP_append _ _ _

lemma appInfoSeriesCount_append (a b : List Line) :
    appInfoSeriesCount (a ++ b) = appInfoSeriesCount a + appInfoSeriesCount b :=
  List.countP_append _ _ _

lemma helpCount_ne_block {f g : Fam} (hne : f ≠ g) (b : List Line)
    (hb : ∀ l ∈ b, l.fam = some g ∨ l.fam = none) : helpCount f b = 0 :=
  countP_block_ne (help_pred_fam f) hne b hb

lemma typeCount_ne_block {f g : Fam} (hne : f ≠ g) (b : List Line)
    (hb : ∀ l ∈ b, l.fam = some g ∨ l.fam = none) : typeCount f b = 0 :=
  countP_block_ne (type_pred_fam f) hne b hb

lemma famCount_ne_block {f g : Fam} (hne : f ≠ g) (b : List Line)
    (hb : ∀ l ∈ b, l.fam = some g ∨ l.fam = none) : famCount f b = 0 :=
  countP_block_ne (fam_pred_fam f) hne b hb

lemma appInfoSeriesCount_ne_block {g : Fam} (hne : Fam.appInfo ≠ g) (b : List Line)
    (hb : ∀ l ∈ b, l.fam = some g ∨ l.fam = none) : appInfoSeriesCount b = 0 :=
  countP_block_ne appInfoSeries_pred_fam hne b hb

lemma countP_map_eq_zero {α : Type} (p : Line → Bool) (f : α → Line) (l : List α)
    (h : ∀ a, p (f a) = false) : (l.map f).countP p = 0 := by
  rw [List.countP_eq_zero]
  intro x hx
  obtain ⟨a, -, rfl⟩ := List.mem_map.mp hx
  simp [h a]

lemma countP_flatten_eq_zero (p : Line → Bool) (L : List (List Line))
    (h : ∀ sub ∈ L, sub.countP p = 0) : L.flatten.countP p = 0 := by
  induction L with
  | nil => simp
  | cons a L ih =>
    rw [List.flatten_cons, List.countP_append, h a (by simp),
      ih fun sub hs => h sub (by simp [hs])]

lemma countP_histogramLines_eq_zero (p : Line → Bool)
    (h1 : ∀ a m q le c, p (.durationBucket a m q le c) = false)
    (h2 : ∀ a m q c, p (.durationBucketInf a m q c) = false)
    (h3 : ∀ a m q x, p (.durationSum a m q x) = false)
    (h4 : ∀ a m q c, p (.durationCount a m q c) = false)
    (a m q : String) (h : Histogram) :
    (histogramLines a m q h).countP p = 0 := by
  unfold histogramLines
  rw [List.countP_append, countP_map_eq_zero _ _ _ fun bc => h1 _ _ _ _ _]
  simp [List.countP_cons, h2, h3, h4]

lemma helpCount_appInfoBlock (r : MetricsRegistry) :
    helpCount Fam.appInfo (appInfoBlock r) = if r.app_info.isEmpty then 0 else 1 := by
  unfold helpCount appInfoBlock
  split <;> simp [List.countP_cons]

lemma typeCount_appInfoBlock (r : MetricsRegistry) :
    typeCount Fam.appInfo (appInfoBlock r) = if r.app_info.isEmpty then 0 else 1 := by
  unfold typeCount appInfoBlock
  split <;> simp [List.countP_cons]

lemma appInfoSeriesCount_appInfoBlock (r : MetricsRegistry) :
    appInfoSeriesCount (appInfoBlock r) = if r.app_info.isEmpty then 0 else 1 := by
  unfold appInfoSeriesCount appInfoBlock
  split <;> simp [List.countP_cons]

lemma helpCount_requestBlock (r : MetricsRegistry) :
    helpCount Fam.requests (requestBlock r) =
      if r.request_count.isEmpty then 0 else 1 := by
  unfold helpCount requestBlock
  split
  · simp
  · rw [List.countP_append, List.countP_append,
      countP_map_eq_zero _ _ _ fun kc => rfl]
    simp [List.countP_cons]

lemma typeCount_requestBlock (r : MetricsRegistry) :
    typeCount Fam.requests (requestBlock r) =
      if r.request_count.isEmpty then 0 else 1 := by
  unfold typeCount requestBlock
  split
  · simp
  · rw [List.countP_append, List.countP_append,
      countP_map_eq_zero _ _ _ fun kc => rfl]
    simp [List.countP_cons]

lemma helpCount_durationBlock (r : MetricsRegistry) :
    helpCount Fam.duration (durationBlock r) =
      if r.request_latency.isEmpty then 0 else 1 := by
  unfold helpCount durationBlock
  split
  · simp
  · rw [List.countP_append, List.countP_append,
      countP_flatten_eq_zero _ _ (by
        intro sub hs
        obtain ⟨kh, -, rfl⟩ := List.mem_map.mp hs
        exact countP_histogramLines_eq_zero _ (fun _ _ _ _ _ => rfl)
          (fun _ _ _ _ => rfl) (fun _ _ _ _ => rfl) (fun _ _ _ _ => rfl) _ _ _ _)]
    simp [List.countP_cons]

lemma typeCount_durationBlock (r : MetricsRegistry) :
    typeCount Fam.duration (durationBlock r) =
      if r.request_latency.isEmpty then 0 else 1 := by
  unfold typeCount durationBlock
  split
  · simp
  · rw [List.countP_append, List.countP_append,
      countP_flatten_eq_zero _ _ (by
        intro sub hs
        obtain ⟨kh, -, rfl⟩ := List.mem_map.mp hs
        exact countP_histogramLines_eq_zero _ (fun _ _ _ _ _ => rfl)
          (fun _ _ _ _ => rfl) (fun _ _ _ _ => rfl) (fun _ _ _ _ => rfl) _ _ _ _)]
    simp [List.countP_cons]

lemma helpCount_inProgressBlock (r : MetricsRegistry) :
    helpCount Fam.inProgress (inProgressBlock r) =
      if r.request_in_progress.isEmpty then 0 else 1 := by
  unfold helpCount inProgressBlock
  split
  · simp
  · rw [List.countP_append, List.countP_append,
      countP_map_eq_zero _ _ _ fun kg => rfl]
    simp [List.countP_cons]

lemma typeCount_inProgressBlock (r : MetricsRegistry) :
    typeCount Fam.inProgress (inProgressBlock r) =
      if r.request_in_progress.isEmpty then 0 else 1 := by
  unfold typeCount inProgressBlock
  split
  · simp
  · rw [List.countP_append, List.countP_append,
      countP_map_eq_zero _ _ _ fun kg => rfl]
    simp [List.countP_cons]

lemma helpCount_errorBlock (r : MetricsRegistry) :
    helpCount Fam.errors (errorBlock r) =
      if r.error_count.isEmpty then 0 else 1 := by
  unfold helpCount errorBlock
  split
  · simp
  · rw [List.countP_append, List.countP_append,
      countP_map_eq_zero _ _ _ fun kc => rfl]
    simp [List.countP_cons]

lemma typeCount_errorBlock (r : MetricsRegistry) :
    typeCount Fam.errors (errorBlock r) =
      if r.error_count.isEmpty then 0 else 1 := by
  unfold typeCount errorBlock
  split
  · simp
  · rw [List.countP_append, List.countP_append,
      countP_map_eq_zero _ _ _ fun kc => rfl]
    simp [List.countP_cons]

/-- C6: the export output contains exactly one HELP line and one TYPE line
for every metric family with at least one recorded series, no line at all
for a family with none, and the app-info gauge line exactly when app info
has been set. -/
theorem export_one_help_type_per_nonempty_family (r : MetricsRegistry) :
    (helpCount Fam.appInfo r.exportLines = if r.app_info.isEmpty then 0 else 1) ∧
    (typeCount Fam.appInfo r.exportLines = if r.app_info.isEmpty then 0 else 1) ∧
    (helpCount Fam.requests r.exportLines = if r.request_count.isEmpty then 0 else 1) ∧
    (typeCount Fam.requests r.exportLines = if r.request_count.isEmpty then 0 else 1) ∧
    (helpCount Fam.duration r.exportLines = if r.request_latency.isEmpty then 0 else 1) ∧
    (typeCount Fam.duration r.exportLines = if r.request_latency.isEmpty then 0 else 1) ∧
    (helpCount Fam.inProgress r.exportLines = if r.request_in_progress.isEmpty then 0 else 1) ∧
    (typeCount Fam.inProgress r.exportLines = if r.request_in_progress.isEmpty then 0 else 1) ∧
    (helpCount Fam.errors r.exportLines = if r.error_count.isEmpty then 0 else 1) ∧
    (typeCount Fam.errors r.exportLines = if r.error_count.isEmpty then 0 else 1) ∧
    (appInfoSeriesCount r.exportLines = if r.app_info.isEmpty then 0 else 1) ∧
    (r.app_info.isEmpty = true → famCount Fam.appInfo r.exportLines = 0) ∧
    (r.request_count.isEmpty = true → famCount Fam.requests r.exportLines = 0) ∧
    (r.request_latency.isEmpty = true → famCount Fam.duration r.exportLines = 0) ∧
    (r.request_in_progress.isEmpty = true → famCount Fam.inProgress r.exportLines = 0) ∧
    (r.error_count.isEmpty = true → famCount Fam.errors r.exportLines = 0) := by
  refine ⟨?_, ?_, ?_, ?_, ?_, ?_, ?_, ?_, ?_, ?_, ?_, ?_, ?_, ?_, ?_, ?_⟩
  · unfold MetricsRegistry.exportLines
    rw [helpCount_append _ _ _, helpCount_append _ _ _, helpCount_append _ _ _, helpCount_append _ _ _,
      helpCount_appInfoBlock r,
      helpCount_ne_block (show Fam.appInfo ≠ Fam.requests by decide)
        (requestBlock r) (mem_requestBlock_fam r),
      helpCount_ne_block (show Fam.appInfo ≠ Fam.duration by decide)
        (durationBlock r) (mem_durationBlock_fam r),
      helpCount_ne_block (show Fam.appInfo ≠ Fam.inProgress by decide)
        (inProgressBlock r) (mem_inProgressBlock_fam r),
      helpCount_ne_block (show Fam.appInfo ≠ Fam.errors by decide)
        (errorBlock r) (mem_errorBlock_fam r)]
    simp
  · unfold MetricsRegistry.exportLines
    rw [typeCount_append _ _ _, typeCount_append _ _ _, typeCount_append _ _ _, typeCount_append _ _ _,
      typeCount_appInfoBlock r,
      typeCount_ne_block (show Fam.appInfo ≠ Fam.requests by decide)
        (requestBlock r) (mem_requestBlock_fam r),
      typeCount_ne_block (show Fam.appInfo ≠ Fam.duration by decide)
        (durationBlock r) (mem_durationBlock_fam r),
      typeCount_ne_block (show Fam.appInfo ≠ Fam.inProgress by decide)
        (inProgressBlock r) (mem_inProgressBlock_fam r),
      typeCount_ne_block (show Fam.appInfo ≠ Fam.errors by decide)
        (errorBlock r) (mem_errorBlock_fam r)]
    simp
  · unfold MetricsRegistry.exportLines
    rw [helpCount_append _ _ _, helpCount_append _ _ _, helpCount_append _ _ _, helpCount_append _ _ _,
      helpCount_ne_block (show Fam.requests ≠ Fam.appInfo by decide)
        (appInfoBlock r) (mem_appInfoBlock_fam r),
      helpCount_requestBlock r,
      helpCount_ne_block (show Fam.requests ≠ Fam.duration by decide)
        (durationBlock r) (mem_durationBlock_fam r),
      helpCount_ne_block (show Fam.requests ≠ Fam.inProgress by decide)
        (inProgressBlock r) (mem_inProgressBlock_fam r),
      helpCount_ne_block (show Fam.requests ≠ Fam.errors by decide)
        (errorBlock r) (mem_errorBlock_fam r)]
    simp
  · unfold MetricsRegistry.exportLines
    rw [typeCount_append _ _ _, typeCount_append _ _ _, typeCount_append _ _ _, typeCount_append _ _ _,
      typeCount_ne_block (show Fam.requests ≠ Fam.appInfo by decide)
        (appInfoBlock r) (mem_appInfoBlock_fam r),
      typeCount_requestBlock r,
      typeCount_ne_block (show Fam.requests ≠ Fam.duration by decide)
        (durationBlock r) (mem_durationBlock_fam r),
      typeCount_ne_block (show Fam.requests ≠ Fam.inProgress by decide)
        (inProgressBlock r) (mem_inProgressBlock_fam r),
      typeCount_ne_block (show Fam.requests ≠ Fam.errors by decide)
        (errorBlock r) (mem_errorBlock_fam r)]
    simp
  · unfold MetricsRegistry.exportLines
    rw [helpCount_append _ _ _, helpCount_append _ _ _, helpCount_append _ _ _, helpCount_append _ _ _,
      helpCount_ne_block (show Fam.duration ≠ Fam.appInfo by decide)
        (appInfoBlock r) (mem_appInfoBlock_fam r),
      helpCount_ne_block (show Fam.duration ≠ Fam.requests by decide)
        (requestBlock r) (mem_requestBlock_fam r),
      helpCount_durationBlock r,
      helpCount_ne_block (show Fam.duration ≠ Fam.inProgress by decide)
        (inProgressBlock r) (mem_inProgressBlock_fam r),
      helpCount_ne_block (show Fam.duration ≠ Fam.errors by decide)
        (errorBlock r) (mem_errorBlock_fam r)]
    simp
  · unfold MetricsRegistry.exportLines
    rw [typeCount_append _ _ _, typeCount_append _ _ _, typeCount_append _ _ _, typeCount_append _ _ _,
      typeCount_ne_block (show Fam.duration ≠ Fam.appInfo by decide)
        (appInfoBlock r) (mem_appInfoBlock_fam r),
      typeCount_ne_block (show Fam.duration ≠ Fam.requests by decide)
        (requestBlock r) (mem_requestBlock_fam r),
      typeCount_durationBlock r,
      typeCount_ne_block (show Fam.duration ≠ Fam.inProgress by decide)
        (inProgressBlock r) (mem_inProgressBlock_fam r),
      typeCount_ne_block (show Fam.duration ≠ Fam.errors by decide)
        (errorBlock r) (mem_errorBlock_fam r)]
    simp
  · unfold MetricsRegistry.exportLines
    rw [helpCount_append _ _ _, helpCount_append _ _ _, helpCount_append _ _ _, helpCount_append _ _ _,
      helpCount_ne_block (show Fam.inProgress ≠ Fam.appInfo by decide)
        (appInfoBlock r) (mem_appInfoBlock_fam r),
      helpCount_ne_block (show Fam.inProgress ≠ Fam.requests by decide)
        (requestBlock r) (mem_requestBlock_fam r),
      helpCount_ne_block (show Fam.inProgress ≠ Fam.duration by decide)
        (durationBlock r) (mem_durationBlock_fam r),
      helpCount_inProgressBlock r,
      helpCount_ne_block (show Fam.inProgress ≠ Fam.errors by decide)
        (errorBlock r) (mem_errorBlock_fam r)]
    simp
  · unfold MetricsRegistry.exportLines
    rw [typeCount_append _ _ _, typeCount_append _ _ _, typeCount_append _ _ _, typeCount_append _ _ _,
      typeCount_ne_block (show Fam.inProgress ≠ Fam.appInfo by decide)
        (appInfoBlock r) (mem_appInfoBlock_fam r),
      typeCount_ne_block (show Fam.inProgress ≠ Fam.requests by decide)
        (requestBlock r) (mem_requestBlock_fam r),
      typeCount_ne_block (show Fam.inProgress ≠ Fam.duration by decide)
        (durationBlock r) (mem_durationBlock_fam r),
      typeCount_inProgressBlock r,
      typeCount_ne_block (show Fam.inProgress ≠ Fam.errors by decide)
        (errorBlock r) (mem_errorBlock_fam r)]
    simp
  · unfold MetricsRegistry.exportLines
    rw [helpCount_append _ _ _, helpCount_append _ _ _, helpCount_append _ _ _, helpCount_append _ _ _,
      helpCount_ne_block (show Fam.errors ≠ Fam.appInfo by decide)
        (appInfoBlock r) (mem_appInfoBlock_fam r),
      helpCount_ne_block (show Fam.errors ≠ Fam.requests by decide)
        (requestBlock r) (mem_requestBlock_fam r),
      helpCount_ne_block (show Fam.errors ≠ Fam.duration by decide)
        (durationBlock r) (mem_durationBlock_fam r),
      helpCount_ne_block (show Fam.errors ≠ Fam.inProgress by decide)
        (inProgressBlock r) (mem_inProgressBlock_fam r),
      helpCount_errorBlock r]
    simp
  · unfold MetricsRegistry.exportLines
    rw [typeCount_append _ _ _, typeCount_append _ _ _, typeCount_append _ _ _, typeCount_append _ _ _,
      typeCount_ne_block (show Fam.errors ≠ Fam.appInfo by decide)
        (appInfoBlock r) (mem_appInfoBlock_fam r),
      typeCount_ne_block (show Fam.errors ≠ Fam.requests by decide)
        (requestBlock r) (mem_requestBlock_fam r),
      typeCount_ne_block (show Fam.errors ≠ Fam.duration by decide)
        (durationBlock r) (mem_durationBlock_fam r),
      typeCount_ne_block (show Fam.errors ≠ Fam.inProgress by decide)
        (inProgressBlock r) (mem_inProgressBlock_fam r),
      typeCount_errorBlock r]
    simp
  · unfold MetricsRegistry.exportLines
    rw [appInfoSeriesCount_append _ _, appInfoSeriesCount_append _ _,
      appInfoSeriesCount_append _ _, appInfoSeriesCount_append _ _,
      appInfoSeriesCount_appInfoBlock r,
      appInfoSeriesCount_ne_block (show Fam.appInfo ≠ Fam.requests by decide)
        (requestBlock r) (mem_requestBlock_fam r),
      appInfoSeriesCount_ne_block (show Fam.appInfo ≠ Fam.duration by decide)
        (durationBlock r) (mem_durationBlock_fam r),
      appInfoSeriesCount_ne_block (show Fam.appInfo ≠ Fam.inProgress by decide)
        (inProgressBlock r) (mem_inProgressBlock_fam r),
      appInfoSeriesCount_ne_block (show Fam.appInfo ≠ Fam.errors by decide)
        (errorBlock r) (mem_errorBlock_fam r)]
    simp
  · intro h
    have hb : appInfoBlock r = [] := by unfold appInfoBlock; rw [if_pos h]
    unfold MetricsRegistry.exportLines
    rw [famCount_append _ _ _, famCount_append _ _ _, famCount_append _ _ _,
      famCount_append _ _ _, hb,
      famCount_ne_block (show Fam.appInfo ≠ Fam.requests by decide)
        (requestBlock r) (mem_requestBlock_fam r),
      famCount_ne_block (show Fam.appInfo ≠ Fam.duration by decide)
        (durationBlock r) (mem_durationBlock_fam r),
      famCount_ne_block (show Fam.appInfo ≠ Fam.inProgress by decide)
        (inProgressBlock r) (mem_inProgressBlock_fam r),
      famCount_ne_block (show Fam.appInfo ≠ Fam.errors by decide)
        (errorBlock r) (mem_errorBlock_fam r)]
    simp [famCount]
  · intro h
    have hb : requestBlock r = [] := by unfold requestBlock; rw [if_pos h]
    unfold MetricsRegistry.exportLines
    rw [famCount_append _ _ _, famCount_append _ _ _, famCount_append _ _ _,
      famCount_append _ _ _, hb,
      famCount_ne_block (show Fam.requests ≠ Fam.appInfo by decide)
        (appInfoBlock r) (mem_appInfoBlock_fam r),
      famCount_ne_block (show Fam.requests ≠ Fam.duration by decide)
        (durationBlock r) (mem_durationBlock_fam r),
      famCount_ne_block (show Fam.requests ≠ Fam.inProgress by decide)
        (inProgressBlock r) (mem_inProgressBlock_fam r),
      famCount_ne_block (show Fam.requests ≠ Fam.errors by decide)
        (errorBlock r) (mem_errorBlock_fam r)]
    simp [famCount]
  · intro h
    have hb : durationBlock r = [] := by unfold durationBlock; rw [if_pos h]
    unfold MetricsRegistry.exportLines
    rw [famCount_append _ _ _, famCount_append _ _ _, famCount_append _ _ _,
      famCount_append _ _ _, hb,
      famCount_ne_block (show Fam.duration ≠ Fam.appInfo by decide)
        (appInfoBlock r) (mem_appInfoBlock_fam r),
      famCount_ne_block (show Fam.duration ≠ Fam.requests by decide)
        (requestBlock r) (mem_requestBlock_fam r),
      famCount_ne_block (show Fam.duration ≠ Fam.inProgress by decide)
        (inProgressBlock r) (mem_inProgressBlock_fam r),
      famCount_ne_block (show Fam.duration ≠ Fam.errors by decide)
        (errorBlock r) (mem_errorBlock_fam r)]
    simp [famCount]
  · intro h
    have hb : inProgressBlock r = [] := by unfold inProgressBlock; rw [if_pos h]
    unfold MetricsRegistry.exportLines
    rw [famCount_append _ _ _, famCount_append _ _ _, famCount_append _ _ _,
      famCount_append _ _ _, hb,
      famCount_ne_block (show Fam.inProgress ≠ Fam.appInfo by decide)
        (appInfoBlock r) (mem_appInfoBlock_fam r),
      famCount_ne_block (show Fam.inProgress ≠ Fam.requests by decide)
        (requestBlock r) (mem_requestBlock_fam r),
      famCount_ne_block (show Fam.inProgress ≠ Fam.duration by decide)
        (durationBlock r) (mem_durationBlock_fam r),
      famCount_ne_block (show Fam.inProgress ≠ Fam.errors by decide)
        (errorBlock r) (mem_errorBlock_fam r)]
    simp [famCount]
  · intro h
    have hb : errorBlock r = [] := by unfold errorBlock; rw [if_pos h]
    unfold MetricsRegistry.exportLines
    rw [famCount_append _ _ _, famCount_append _ _ _, famCount_append _ _ _,
      famCount_append _ _ _, hb,
      famCount_ne_block (show Fam.errors ≠ Fam.appInfo by decide)
        (appInfoBlock r) (mem_appInfoBlock_fam r),
      famCount_ne_block (show Fam.errors ≠ Fam.requests by decide)
        (requestBlock r) (mem_requestBlock_fam r),
      famCount_ne_block (show Fam.errors ≠ Fam.duration by decide)
        (durationBlock r) (mem_durationBlock_fam r),
      famCount_ne_block (show Fam.errors ≠ Fam.inProgress by decide)
        (inProgressBlock r) (mem_inProgressBlock_fam r)]
    simp [famCount]

/-- C6, witness at a concrete input (all families empty). -/
theorem export_one_help_type_per_nonempty_family_witness :
    famCount Fam.appInfo (MetricsRegistry.init "app").exportLines = 0 ∧
    famCount Fam.requests (MetricsRegistry.init "app").exportLines = 0 ∧
    famCount Fam.duration (MetricsRegistry.init "app").exportLines = 0 ∧
    famCount Fam.inProgress (MetricsRegistry.init "app").exportLines = 0 ∧
    famCount Fam.errors (MetricsRegistry.init "app").exportLines = 0 := by
  have h := export_one_help_type_per_nonempty_family (MetricsRegistry.init "app")
  exact ⟨h.2.2.2.2.2.2.2.2.2.2.2.1 rfl, h.2.2.2.2.2.2.2.2.2.2.2.2.1 rfl,
    h.2.2.2.2.2.2.2.2.2.2.2.2.2.1 rfl, h.2.2.2.2.2.2.2.2.2.2.2.2.2.2.1 rfl,
    h.2.2.2.2.2.2.2.2.2.2.2.2.2.2.2 rfl⟩

/-! ## C5: deterministic, sorted export -/

lemma requestKeys_pred_fam : ∀ (l : Line) (b : String × String × ℤ),
    (match l with | Line.requestSeries _ m p s _ => some (m, p, s) | _ => none) = some b →
    l.fam = some Fam.requests := by
  intro l b h
  cases l <;> simp_all [Line.fam]

lemma durationSeriesKeys_pred_fam : ∀ (l : Line) (b : String × String),
    (match l with | Line.durationCount _ m p _ => some (m, p) | _ => none) = some b →
    l.fam = some Fam.duration := by
  intro l b h
  cases l <;> simp_all [Line.fam]

lemma inProgressKeys_pred_fam : ∀ (l : Line) (b : String × String),
    (match l with | Line.inProgressSeries _ m p _ => some (m, p) | _ => none) = some b →
    l.fam = some Fam.inProgress := by
  intro l b h
  cases l <;> simp_all [Line.fam]

lemma errorKeys_pred_fam : ∀ (l : Line) (b : String × String × String),
    (match l with | Line.errorSeries _ m p e _ => some (m, p, e) | _ => none) = some b →
    l.fam = some Fam.errors := by
  intro l b h
  cases l <;> simp_all [Line.fam]

lemma filterMap_block_ne {β : Type} {p : Line → Option β} {f g : Fam}
    (hp : ∀ l b, p l = some b → l.fam = some f) (hne : f ≠ g) (b : List Line)
    (hb : ∀ l ∈ b, l.fam = some g ∨ l.fam = none) : b.filterMap p = [] := by
  rw [List.filterMap_eq_nil]
  intro a ha
  cases hpa : p a with
  | none => rfl
  | some b0 =>
    exfalso
    have hfam := hp a b0 hpa
    rcases hb a ha with h | h
    · rw [hfam] at h
      exact hne (Option.some_injective _ h)
    · rw [hfam] at h
      exact Option.noConfusion h

lemma requestKeys_append (a b : List Line) :
    requestKeys (a ++ b) = requestKeys a ++ requestKeys b :=
  List.filterMap_append _ _ _

lemma durationSeriesKeys_append (a b : List Line) :
    durationSeriesKeys (a ++ b) = durationSeriesKeys a ++ durationSeriesKeys b :=
  List.filterMap_append _ _ _

lemma inProgressKeys_append (a b : List Line) :
    inProgressKeys (a ++ b) = inProgressKeys a ++ inProgressKeys b :=
  List.filterMap_append _ _ _

lemma errorKeys_append (a b : List Line) :
    errorKeys (a ++ b) = errorKeys a ++ errorKeys b :=
  List.filterMap_append _ _ _

lemma filterMap_flatten_eq {β : Type} (p : Line → Option β) :
    ∀ L : List (List Line),
      L.flatten.filterMap p = (L.map fun sub => sub.filterMap p).flatten := by
  intro L
  induction L with
  | nil => simp
  | cons a L ih => simp [List.filterMap_append, ih]

lemma durationSeriesKeys_flatten (L : List (List Line)) :
    durationSeriesKeys L.flatten = (L.map durationSeriesKeys).flatten :=
  filterMap_flatten_eq _ L

lemma flatten_map_singleton {α β : Type} (f : α → β) (l : List α) :
    (l.map fun a => [f a]).flatten = l.map f := by
  induction l with
  | nil => simp
  | cons a l ih => simp [ih]

lemma requestKeys_map_series (a : String) :
    ∀ l : List ((String × String × ℤ) × Counter),
      requestKeys (l.map fun kc =>
        Line.requestSeries a kc.1.1 kc.1.2.1 kc.1.2.2 kc.2.value) = l.map Prod.fst := by
  intro l
  induction l with
  | nil => rfl
  | cons kc l ih => simp [requestKeys, List.filterMap_cons] at ih ⊢; exact ih

lemma inProgressKeys_map_series (a : String) :
    ∀ l : List ((String × String) × Gauge),
      inProgressKeys (l.map fun kg =>
        Line.inProgressSeries a kg.1.1 kg.1.2 kg.2.value) = l.map Prod.fst := by
  intro l
  induction l with
  | nil => rfl
  | cons kg l ih => simp [inProgressKeys, List.filterMap_cons] at ih ⊢; exact ih

lemma errorKeys_map_series (a : String) :
    ∀ l : List ((String × String × String) × Counter),
      errorKeys (l.map fun kc =>
        Line.errorSeries a kc.1.1 kc.1.2.1 kc.1.2.2 kc.2.value) = l.map Prod.fst := by
  intro l
  induction l with
  | nil => rfl
  | cons kc l ih => simp [errorKeys, List.filterMap_cons] at ih ⊢; exact ih

lemma requestKeys_requestBlock (r : MetricsRegistry) :
    requestKeys (requestBlock r) = (sortPairs statusKeyLe r.request_count).map Prod.fst := by
  unfold requestBlock
  split
  next h =>
    rw [List.isEmpty_iff.mp h]
    simp [requestKeys, sortPairs, List.insertionSort]
  next h =>
    rw [requestKeys_append, requestKeys_append]
    rw [show requestKeys [Line.help Fam.requests r.app_name,
        Line.typeOf Fam.requests r.app_name] = [] from rfl]
    rw [show requestKeys [Line.blank] = [] from rfl]
    rw [List.nil_append, List.append_nil]
    exact requestKeys_map_series r.app_name _

lemma durationSeriesKeys_histogramLines (a m p : String) (h : Histogram) :
    durationSeriesKeys (histogramLines a m p h) = [(m, p)] := by
  unfold durationSeriesKeys histogramLines
  rw [List.filterMap_append]
  have h1 : ∀ l : List (ℚ × ℕ),
      (l.map fun bc => Line.durationBucket a m p bc.1 bc.2).filterMap
        (fun l => match l with
          | Line.durationCount _ m p _ => some (m, p) | _ => none) = [] := by
    intro l
    induction l with
    | nil => rfl
    | cons bc l ih => simpa [List.filterMap_cons] using ih
  rw [h1]
  rfl

lemma durationSeriesKeys_durationBlock (r : MetricsRegistry) :
    durationSeriesKeys (durationBlock r) =
      (sortPairs pathKeyLe r.request_latency).map Prod.fst := by
  unfold durationBlock
  split
  next h =>
    rw [List.isEmpty_iff.mp h]
    simp [durationSeriesKeys, sortPairs, List.insertionSort]
  next h =>
    rw [durationSeriesKeys_append, durationSeriesKeys_append, durationSeriesKeys_flatten,
      List.map_map]
    rw [show durationSeriesKeys [Line.help Fam.duration r.app_name,
        Line.typeOf Fam.duration r.app_name] = [] from rfl]
    rw [show durationSeriesKeys [Line.blank] = [] from rfl]
    rw [List.nil_append, List.append_nil]
    rw [show (durationSeriesKeys ∘ fun kh : (String × String) × Histogram =>
        histogramLines r.app_name kh.1.1 kh.1.2 kh.2) =
        fun kh : (String × String) × Histogram => [(kh.1.1, kh.1.2)] from
      funext fun kh => durationSeriesKeys_histogramLines _ _ _ _]
    rw [flatten_map_singleton (fun kh : (String × String) × Histogram => (kh.1.1, kh.1.2))]

lemma inProgressKeys_inProgressBlock (r : MetricsRegistry) :
    inProgressKeys (inProgressBlock r) =
      (sortPairs pathKeyLe r.request_in_progress).map Prod.fst := by
  unfold inProgressBlock
  split
  next h =>
    rw [List.isEmpty_iff.mp h]
    simp [inProgressKeys, sortPairs, List.insertionSort]
  next h =>
    rw [inProgressKeys_append, inProgressKeys_append]
    rw [show inProgressKeys [Line.help Fam.inProgress r.app_name,
        Line.typeOf Fam.inProgress r.app_name] = [] from rfl]
    rw [show inProgressKeys [Line.blank] = [] from rfl]
    rw [List.nil_append, List.append_nil]
    exact inProgressKeys_map_series r.app_name _

lemma errorKeys_errorBlock (r : MetricsRegistry) :
    errorKeys (errorBlock r) = (sortPairs errorKeyLe r.error_count).map Prod.fst := by
  unfold errorBlock
  split
  next h =>
    rw [List.isEmpty_iff.mp h]
    simp [errorKeys, sortPairs, List.insertionSort]
  next h =>
    rw [errorKeys_append, errorKeys_append]
    rw [show errorKeys [Line.help Fam.errors r.app_name,
        Line.typeOf Fam.errors r.app_name] = [] from rfl]
    rw [show errorKeys [Line.blank] = [] from rfl]
    rw [List.nil_append, List.append_nil]
    exact errorKeys_map_series r.app_name _

lemma requestKeys_ne_block {g : Fam} (hne : Fam.requests ≠ g) (b : List Line)
    (hb : ∀ l ∈ b, l.fam = some g ∨ l.fam = none) : requestKeys b = [] :=
  filterMap_block_ne requestKeys_pred_fam hne b hb

lemma durationSeriesKeys_ne_block {g : Fam} (hne : Fam.duration ≠ g) (b : List Line)
    (hb : ∀ l ∈ b, l.fam = some g ∨ l.fam = none) : durationSeriesKeys b = [] :=
  filterMap_block_ne durationSeriesKeys_pred_fam hne b hb

lemma inProgressKeys_ne_block {g : Fam} (hne : Fam.inProgress ≠ g) (b : List Line)
    (hb : ∀ l ∈ b, l.fam = some g ∨ l.fam = none) : inProgressKeys b = [] :=
  filterMap_block_ne inProgressKeys_pred_fam hne b hb

lemma errorKeys_ne_block {g : Fam} (hne : Fam.errors ≠ g) (b : List Line)
    (hb : ∀ l ∈ b, l.fam = some g ∨ l.fam = none) : errorKeys b = [] :=
  filterMap_block_ne errorKeys_pred_fam hne b hb

lemma requestKeys_export (r : MetricsRegistry) :
    requestKeys r.exportLines = (sortPairs statusKeyLe r.request_count).map Prod.fst := by
  unfold MetricsRegistry.exportLines
  rw [requestKeys_append, requestKeys_append, requestKeys_append, requestKeys_append,
    requestKeys_ne_block (show Fam.requests ≠ Fam.appInfo by decide) _
      (mem_appInfoBlock_fam r),
    requestKeys_requestBlock,
    requestKeys_ne_block (show Fam.requests ≠ Fam.duration by decide) _
      (mem_durationBlock_fam r),
    requestKeys_ne_block (show Fam.requests ≠ Fam.inProgress by decide) _
      (mem_inProgressBlock_fam r),
    requestKeys_ne_block (show Fam.requests ≠ Fam.errors by decide) _
      (mem_errorBlock_fam r)]
  simp

lemma durationSeriesKeys_export (r : MetricsRegistry) :
    durationSeriesKeys r.exportLines =
      (sortPairs pathKeyLe r.request_latency).map Prod.fst := by
  unfold MetricsRegistry.exportLines
  rw [durationSeriesKeys_append, durationSeriesKeys_append, durationSeriesKeys_append,
    durationSeriesKeys_append,
    durationSeriesKeys_ne_block (show Fam.duration ≠ Fam.appInfo by decide) _
      (mem_appInfoBlock_fam r),
    durationSeriesKeys_ne_block (show Fam.duration ≠ Fam.requests by decide) _
      (mem_requestBlock_fam r),
    durationSeriesKeys_durationBlock,
    durationSeriesKeys_ne_block (show Fam.duration ≠ Fam.inProgress by decide) _
      (mem_inProgressBlock_fam r),
    durationSeriesKeys_ne_block (show Fam.duration ≠ Fam.errors by decide) _
      (mem_errorBlock_fam r)]
  simp

lemma inProgressKeys_export (r : MetricsRegistry) :
    inProgressKeys r.exportLines =
      (sortPairs pathKeyLe r.request_in_progress).map Prod.fst := by
  unfold MetricsRegistry.exportLines
  rw [inProgressKeys_append, inProgressKeys_append, inProgressKeys_append,
    inProgressKeys_append,
    inProgressKeys_ne_block (show Fam.inProgress ≠ Fam.appInfo by decide) _
      (mem_appInfoBlock_fam r),
    inProgressKeys_ne_block (show Fam.inProgress ≠ Fam.requests by decide) _
      (mem_requestBlock_fam r),
    inProgressKeys_ne_block (show Fam.inProgress ≠ Fam.duration by decide) _
      (mem_durationBlock_fam r),
    inProgressKeys_inProgressBlock,
    inProgressKeys_ne_block (show Fam.inProgress ≠ Fam.errors by decide) _
      (mem_errorBlock_fam r)]
  simp

lemma errorKeys_export (r : MetricsRegistry) :
    errorKeys r.exportLines = (sortPairs errorKeyLe r.error_count).map Prod.fst := by
  unfold MetricsRegistry.exportLines
  rw [errorKeys_append, errorKeys_append, errorKeys_append, errorKeys_append,
    errorKeys_ne_block (show Fam.errors ≠ Fam.appInfo by decide) _
      (mem_appInfoBlock_fam r),
    errorKeys_ne_block (show Fam.errors ≠ Fam.requests by decide) _
      (mem_requestBlock_fam r),
    errorKeys_ne_block (show Fam.errors ≠ Fam.duration by decide) _
      (mem_durationBlock_fam r),
    errorKeys_ne_block (show Fam.errors ≠ Fam.inProgress by decide) _
      (mem_inProgressBlock_fam r),
    errorKeys_errorBlock]
  simp

lemma get_bucket_counts_fst (h : Histogram) :
    h.get_bucket_counts.map Prod.fst = h.buckets.insertionSort (· ≤ ·) := by
  unfold Histogram.get_bucket_counts
  generalize h.buckets.insertionSort (· ≤ ·) = bs
  suffices H : ∀ (bs : List ℚ) (acc : List (ℚ × ℕ)) (tot : ℕ),
      ((bs.foldl (fun (acc : List (ℚ × ℕ) × ℕ) bucket =>
        (acc.1 ++ [(bucket, acc.2 + h.counts bucket)], acc.2 + h.counts bucket))
        (acc, tot)).1).map Prod.fst = acc.map Prod.fst ++ bs by
    simpa using H bs [] 0
  intro bs
  induction bs with
  | nil => intro acc tot; simp
  | cons b bs ih =>
    intro acc tot
    rw [List.foldl_cons, ih]
    simp

lemma findVal_mem {κ V : Type} [DecidableEq κ] (k : κ) :
    ∀ (l : List (κ × V)) (v : V), findVal k l = some v → (k, v) ∈ l := by
  intro l
  induction l with
  | nil => intro v h; simp [findVal] at h
  | cons kv rest ih =>
    intro v h
    obtain ⟨k0, v0⟩ := kv
    by_cases hk : k = k0
    · subst hk
      simp [findVal] at h
      subst h
      exact List.mem_cons_self _ _
    · simp only [findVal, if_neg hk] at h
      exact List.mem_cons_of_mem _ (ih v h)

lemma isDurationLineFor_fam (m p : String) :
    ∀ l : Line, isDurationLineFor m p l = true → l.fam = some Fam.duration := by
  intro l h
  cases l <;> simp_all [isDurationLineFor, Line.fam]

lemma filter_duration_ne_block {g : Fam} (hne : Fam.duration ≠ g) (m p : String)
    (b : List Line) (hb : ∀ l ∈ b, l.fam = some g ∨ l.fam = none) :
    b.filter (isDurationLineFor m p) = [] := by
  rw [List.filter_eq_nil_iff]
  intro a ha hpa
  have hfam := isDurationLineFor_fam m p a hpa
  rcases hb a ha with h | h
  · rw [hfam] at h
    exact hne (Option.some_injective _ h)
  · rw [hfam] at h
    exact Option.noConfusion h

lemma mem_histogramLines_labels (a m p : String) (h : Histogram) :
    ∀ l ∈ histogramLines a m p h, isDurationLineFor m p l = true := by
  intro l hl
  unfold histogramLines at hl
  rcases List.mem_append.mp hl with h2 | h2
  · obtain ⟨bc, -, rfl⟩ := List.mem_map.mp h2
    simp [isDurationLineFor]
  · simp only [List.mem_cons, List.not_mem_nil, or_false] at h2
    rcases h2 with rfl | rfl | rfl <;> simp [isDurationLineFor]

lemma filter_histogramLines_self (a m p : String) (h : Histogram) :
    (histogramLines a m p h).filter (isDurationLineFor m p) = histogramLines a m p h :=
  List.filter_eq_self.mpr (mem_histogramLines_labels a m p h)

lemma histogramLines_labels_ne (a m p mq pq : String) (h : Histogram)
    (hne : ¬(m = mq ∧ p = pq)) :
    (histogramLines a m p h).filter (isDurationLineFor mq pq) = [] := by
  rw [List.filter_eq_nil_iff]
  intro l hl
  unfold histogramLines at hl
  rcases List.mem_append.mp hl with h2 | h2
  · obtain ⟨bc, -, rfl⟩ := List.mem_map.mp h2
    simp [isDurationLineFor]
    intro hm hp
    exact absurd ⟨hm, hp⟩ hne
  · simp only [List.mem_cons, List.not_mem_nil, or_false] at h2
    rcases h2 with rfl | rfl | rfl <;>
      · simp [isDurationLineFor]
        intro hm hp
        exact absurd ⟨hm, hp⟩ hne

lemma filter_flatten_eq (p : Line → Bool) :
    ∀ L : List (List Line),
      L.flatten.filter p = (L.map fun sub => sub.filter p).flatten := by
  intro L
  induction L with
  | nil => simp
  | cons a L ih => simp [List.filter_append, ih]

lemma flatten_filter_not_mem (a m p : String) :
    ∀ l : List ((String × String) × Histogram),
      (m, p) ∉ l.map Prod.fst →
      ((l.map fun kh => histogramLines a kh.1.1 kh.1.2 kh.2).map
        (fun sub => sub.filter (isDurationLineFor m p))).flatten = [] := by
  intro l
  induction l with
  | nil => intro _; simp
  | cons kh rest ih =>
    intro hnm
    rw [List.map_cons] at hnm
    have hk : kh.1 ≠ (m, p) := fun hcon => hnm (List.mem_cons.mpr (Or.inl hcon.symm))
    have hcond : ¬(kh.1.1 = m ∧ kh.1.2 = p) := by
      intro hcon
      exact hk (Prod.ext hcon.1 hcon.2)
    simp only [List.map_cons, List.flatten_cons]
    rw [histogramLines_labels_ne _ _ _ _ _ _ hcond,
      ih fun hmem => hnm (List.mem_cons.mpr (Or.inr hmem))]
    rfl

lemma flatten_pick (a m p : String) :
    ∀ (l : List ((String × String) × Histogram)) (v : Histogram),
      (l.map Prod.fst).Nodup → ((m, p), v) ∈ l →
      ((l.map fun kh => histogramLines a kh.1.1 kh.1.2 kh.2).map
        (fun sub => sub.filter (isDurationLineFor m p))).flatten =
        histogramLines a m p v := by
  intro l
  induction l with
  | nil => intro v _ hmem; simp at hmem
  | cons kh rest ih =>
    intro v hnd hmem
    rw [List.map_cons] at hnd
    have hnd2 := List.nodup_cons.mp hnd
    simp only [List.map_cons, List.flatten_cons]
    rcases List.mem_cons.mp hmem with heq | hmem2
    · have heq2 := heq.symm
      subst heq2
      rw [filter_histogramLines_self,
        flatten_filter_not_mem a m p rest hnd2.1]
      simp
    · have hk : kh.1 ≠ (m, p) := by
        intro hcon
        have hmemkey : (m, p) ∈ rest.map Prod.fst :=
          List.mem_map.mpr ⟨((m, p), v), hmem2, rfl⟩
        rw [hcon] at hnd2
        exact hnd2.1 hmemkey
      have hcond : ¬(kh.1.1 = m ∧ kh.1.2 = p) := by
        intro hcon
        exact hk (Prod.ext hcon.1 hcon.2)
      rw [histogramLines_labels_ne _ _ _ _ _ _ hcond, List.nil_append]
      exact ih v hnd2.2 hmem2

lemma durationLinesFor_export (r : MetricsRegistry) (m p : String) (h : Histogram)
    (hnd : (r.request_latency.map Prod.fst).Nodup)
    (hfind : findVal (m, p) r.request_latency = some h) :
    durationLinesFor m p r.exportLines = histogramLines r.app_name m p h := by
  unfold durationLinesFor MetricsRegistry.exportLines
  rw [List.filter_append, List.filter_append, List.filter_append, List.filter_append,
    filter_duration_ne_block (show Fam.duration ≠ Fam.appInfo by decide) m p _
      (mem_appInfoBlock_fam r),
    filter_duration_ne_block (show Fam.duration ≠ Fam.requests by decide) m p _
      (mem_requestBlock_fam r),
    filter_duration_ne_block (show Fam.duration ≠ Fam.inProgress by decide) m p _
      (mem_inProgressBlock_fam r),
    filter_duration_ne_block (show Fam.duration ≠ Fam.errors by decide) m p _
      (mem_errorBlock_fam r)]
  unfold durationBlock
  have hne : ¬r.request_latency.isEmpty = true := by
    intro hcon
    rw [List.isEmpty_iff.mp hcon] at hfind
    simp [findVal] at hfind
  rw [if_neg hne, List.filter_append, List.filter_append,
    show ([Line.help Fam.duration r.app_name,
      Line.typeOf Fam.duration r.app_name].filter (isDurationLineFor m p)) = [] from rfl,
    show ([Line.blank].filter (isDurationLineFor m p)) = [] from rfl,
    filter_flatten_eq (isDurationLineFor m p) _]
  simp only [List.nil_append, List.append_nil]
  apply flatten_pick
  · have hperm : List.Perm ((sortPairs pathKeyLe r.request_latency).map Prod.fst)
        (r.request_latency.map Prod.fst) :=
      (List.perm_insertionSort (onFst pathKeyLe) r.request_latency).map _
    exact hperm.nodup_iff.mpr hnd
  · exact (List.perm_insertionSort (onFst pathKeyLe) r.request_latency).mem_iff.mpr
      (findVal_mem _ _ _ hfind)

/-- C5: for every registry state, the export's series lines are sorted
ascending by label tuple within every family (lexicographic over the
tuple); every histogram's per-bucket lines appear in ascending boundary
order; and the whole block a histogram series contributes is exactly its
cumulative bucket lines followed by the `le="+Inf"` line carrying the
histogram's total count, the `_sum` line, and the `_count` line. Export is
a pure function of the registry state, so the output is deterministic. -/
theorem export_sorted_and_histogram_blocks (r : MetricsRegistry) :
    List.Sorted statusKeyLe (requestKeys r.exportLines) ∧
    List.Sorted pathKeyLe (durationSeriesKeys r.exportLines) ∧
    List.Sorted pathKeyLe (inProgressKeys r.exportLines) ∧
    List.Sorted errorKeyLe (errorKeys r.exportLines) ∧
    (∀ h : Histogram, List.Sorted (· ≤ ·) (h.get_bucket_counts.map Prod.fst)) ∧
    (∀ (m p : String) (h : Histogram),
      (r.request_latency.map Prod.fst).Nodup →
      findVal (m, p) r.request_latency = some h →
      durationLinesFor m p r.exportLines = histogramLines r.app_name m p h) := by
  refine ⟨?_, ?_, ?_, ?_, ?_, durationLinesFor_export r⟩
  · rw [requestKeys_export]
    exact List.Pairwise.map _ (fun a b hh => hh)
      (List.sorted_insertionSort (onFst statusKeyLe) r.request_count)
  · rw [durationSeriesKeys_export]
    exact List.Pairwise.map _ (fun a b hh => hh)
      (List.sorted_insertionSort (onFst pathKeyLe) r.request_latency)
  · rw [inProgressKeys_export]
    exact List.Pairwise.map _ (fun a b hh => hh)
      (List.sorted_insertionSort (onFst pathKeyLe) r.request_in_progress)
  · rw [errorKeys_export]
    exact List.Pairwise.map _ (fun a b hh => hh)
      (List.sorted_insertionSort (onFst errorKeyLe) r.error_count)
  · intro h
    rw [get_bucket_counts_fst]
    exact List.sorted_insertionSort _ _

/-- C5, witness at a concrete input for the hypothesised conjunct. -/
theorem export_sorted_and_histogram_blocks_witness :
    durationLinesFor "GET" "/u"
        (MetricsRegistry.exportLines
          ⟨"app", [], [(("GET", "/u"), Histogram.init)], [], [], []⟩) =
      histogramLines "app" "GET" "/u" Histogram.init :=
  (export_sorted_and_histogram_blocks
    ⟨"app", [], [(("GET", "/u"), Histogram.init)], [], [], []⟩).2.2.2.2.2
    "GET" "/u" Histogram.init (by simp) (by simp [findVal])

end FastapiBootstrap
